import Mathlib

/-!
# Recovery and reconciliation layer of the migration runner

A shallow embedding of `migrate_goto_temp.go` (package `migrate`):
`HandleDirtyState`, `HandleMigrationFailure`, `CleanupFiles` and `CopyFiles`.

Conventions of the embedding.

* Go `int` and `uint` are the 64-bit types.  A `uint` is a `Nat`, an `int` is an `Int`, and
  every conversion between them is written out (`intOfUint`, `uintOfInt`) with its wrap-around.
* A Go string is a Lean `String`; the functions of `strings` and `strconv` work on its list of
  characters.  File contents are text.
* A function with side effects takes the `World` it runs in and returns the `World` it
  leaves behind next to its Go result; an `error` result is an `Option GoError`, `none` being
  `nil`.
* What the operating system and the migration engine decide (whether a call fails, what the
  engine reports) is read from an `Env`.
-/

namespace GoMigrate

/-! ## Errors -/

/-- Go `error` values that reach the functions of this file. -/
inductive GoError where
  /-- The `fs.ErrNotExist` failure of a file-system call on `dir/base`. -/
  | notExist (dir base : String)
  /-- The `EISDIR` failure: a file operation met a directory at `dir/base`. -/
  | isDirectory (dir base : String)
  /-- Any other failure reported by the operating system. -/
  | sys (op : String) (errno : Nat)
  /-- The `strconv.ErrSyntax` failure of `strconv.ParseUint` on `num`. -/
  | badNumber (num : String)
  /-- The `strconv.ErrRange` failure of `strconv.ParseUint` on `num`. -/
  | outOfRange (num : String)
  /-- A failure reported by the migration engine or its database driver. -/
  | engine (msg : String)
  /-- The sentinel `filepath.SkipDir` a walk function returns to skip a directory. -/
  | SkipDir
  /-- The value `errors.Wrap(cause, msg)` for a non-nil `cause`. -/
  | wrapped (cause : GoError) (msg : String)
  deriving DecidableEq, Repr

/-- The call `errors.Wrap(err, message)` of `github.com/pkg/errors` on a non-nil error. -/
def Wrap (err : GoError) (message : String) : GoError :=
  GoError.wrapped err message

/-- Equality of the two-valued results `(value, err)` of Go calls is decidable. -/
instance instDecidableEqExcept {ε α : Type} [DecidableEq ε] [DecidableEq α] :
    DecidableEq (Except ε α)
  | .ok a, .ok b => if h : a = b then isTrue (by rw [h]) else isFalse (fun e => h (by cases e; rfl))
  | .error a, .error b =>
    if h : a = b then isTrue (by rw [h]) else isFalse (fun e => h (by cases e; rfl))
  | .ok _, .error _ => isFalse (fun e => by cases e)
  | .error _, .ok _ => isFalse (fun e => by cases e)

/-! ## Machine integers -/

/-- The conversion `int(u)` of a `uint`/`uint64` value: the same 64 bits read as two's
complement. -/
def intOfUint (u : Nat) : Int :=
  if u % 2 ^ 64 < 2 ^ 63 then ((u % 2 ^ 64 : Nat) : Int) else ((u % 2 ^ 64 : Nat) : Int) - 2 ^ 64

/-- The conversion `uint(i)` of an `int` value: the same 64 bits read as unsigned. -/
def uintOfInt (i : Int) : Nat :=
  (i % 2 ^ 64).toNat

/-! ## `strings` and `strconv` -/

/-- The predicate `unicode.IsSpace`: the characters `strings.TrimSpace` removes. -/
def isSpace (c : Char) : Bool :=
  let n := c.toNat
  (9 ≤ n && n ≤ 13) || n == 32 || n == 0x85 || n == 0xA0 || n == 0x1680 ||
    (0x2000 ≤ n && n ≤ 0x200A) || n == 0x2028 || n == 0x2029 || n == 0x202F ||
    n == 0x205F || n == 0x3000

/-- The call `strings.TrimSpace(s)`: `s` without its leading and trailing white space. -/
def TrimSpace (s : String) : String :=
  ⟨((s.data.dropWhile isSpace).reverse.dropWhile isSpace).reverse⟩

/-- The call `strings.HasSuffix(s, suffix)`. -/
def HasSuffix (s suffix : String) : Bool :=
  suffix.data.isSuffixOf s.data

/-- The search loop of `strings.Index`: the position, counted from `i`, of the first place
where `sep` starts in the remaining text, or `-1`. -/
def indexFrom (sep : List Char) : List Char → Nat → Int
  | [], i => if sep = [] then (i : Int) else -1
  | c :: cs, i => if sep.isPrefixOf (c :: cs) then (i : Int) else indexFrom sep cs (i + 1)

/-- The call `strings.Index(s, substr)`: the index of the first instance of `substr` in `s`,
or `-1` when there is none. -/
def Index (s substr : String) : Int :=
  indexFrom substr.data s.data 0

/-- The slice expression `s[:n]` for an index `n` within `s`. -/
def sliceTo (s : String) (n : Int) : String :=
  ⟨s.data.take n.toNat⟩

/-- The largest `uint64`. -/
def maxUint64 : Nat := 2 ^ 64 - 1

/-- The bound `cutoff` of `strconv.ParseUint` in base 10: the smallest number whose
product with 10 exceeds `maxUint64`. -/
def cutoff : Nat := maxUint64 / 10 + 1

/-- The digit loop of `strconv.ParseUint(s0, 10, 64)`, `n` being the value read so far.  A
character that is not a decimal digit is a syntax error (a letter is a digit of a larger
base, hence not below 10); a product or sum that leaves 64 bits is a range error. -/
def parseDigits (s0 : String) : List Char → Nat → Except GoError Nat
  | [], n => .ok n
  | c :: cs, n =>
    if 48 ≤ c.toNat ∧ c.toNat ≤ 57 then
      let d := c.toNat - 48
      if n ≥ cutoff then .error (.outOfRange s0)
      else
        let n10 := (n * 10) % 2 ^ 64
        let n1 := (n10 + d) % 2 ^ 64
        if n1 < n10 ∨ n1 > maxUint64 then .error (.outOfRange s0)
        else parseDigits s0 cs n1
    else .error (.badNumber s0)

/-- The call `strconv.ParseUint(s, 10, 64)`. -/
def ParseUint (s : String) : Except GoError Nat :=
  if s.data = [] then .error (.badNumber s) else parseDigits s s.data 0

/-- The character of the decimal digit `d`. -/
def digitChar (d : Nat) : Char := Char.ofNat (d + 48)

/-- The division loop of `strconv`'s `formatBits` in base 10: the digits of `u` are put in
front of `acc`, least significant first; `fuel` bounds the number of divisions. -/
def formatBits : Nat → Nat → List Char → List Char
  | 0, _, acc => acc
  | fuel + 1, u, acc =>
    if u ≥ 10 then formatBits fuel (u / 10) (digitChar (u % 10) :: acc)
    else digitChar u :: acc

/-- The call `strconv.FormatUint(u, 10)`: the decimal text of `u`. -/
def FormatUint (u : Nat) : String :=
  ⟨formatBits (u + 1) u []⟩

/-- The call `strconv.Itoa(i)`: the decimal text of `i`, with a minus sign when negative. -/
def Itoa (i : Int) : String :=
  if i < 0 then ⟨'-' :: (FormatUint (-i).toNat).data⟩ else FormatUint i.toNat

/-! ## The file system and the engine -/

/-- The path `filepath.Join(dir, base)` of an entry `base` of the directory `dir`, kept as its
two components.  `Join` drops an empty element, so a path whose `dir` is `""` is the relative
path `base`: an entry of the working directory of the process. -/
structure Path where
  /-- The directory the entry lies in, as written by the caller. -/
  dir : String
  /-- The name of the entry. -/
  base : String
  deriving DecidableEq, Repr

/-- The call `filepath.Join(dir, base)` for a file name `base`. -/
def filepathJoin (dir base : String) : Path :=
  { dir := dir, base := base }

/-- The text of a path, as a log line shows it. -/
def Path.text (p : Path) : String :=
  if p.dir = "" then p.base else p.dir ++ "/" ++ p.base

/-- An entry of a directory of the mutable file system. -/
inductive Node where
  /-- A regular file with its content and permission bits. -/
  | file (data : String) (mode : Nat)
  /-- A subdirectory. -/
  | dir
  deriving DecidableEq, Repr

/-- A file or directory of the tree that `filepath.Walk` traverses.  The children of a
directory are listed in the order in which `Walk` visits them. -/
inductive SrcNode where
  /-- A regular file with its permission bits and content. -/
  | file (name : String) (mode : Nat) (data : String)
  /-- A directory with its entries. -/
  | dir (name : String) (children : List SrcNode)
  deriving Repr

/-- The base name of a source entry. -/
def SrcNode.name : SrcNode → String
  | .file name _ _ => name
  | .dir name _ => name

/-- Whether a source entry is a directory. -/
def SrcNode.isDir : SrcNode → Bool
  | .file _ _ _ => false
  | .dir _ _ => true

/-- The `os.FileInfo` that `Walk` hands to its walk function, together with the content of
the file it describes (empty for a directory), which `os.Open` of the walked path reads. -/
structure FileInfo where
  /-- The result of `Name()`. -/
  Name : String
  /-- The result of `IsDir()`. -/
  IsDir : Bool
  /-- The result of `Mode()`. -/
  Mode : Nat
  /-- The bytes of the described file. -/
  content : String
  deriving DecidableEq, Repr

/-- Modelled from the spec: the type `Migration` is declared outside this file; a
migration descriptor carries an unsigned `Version` and identifying metadata. -/
structure Migration where
  /-- The name of the migration. -/
  Identifier : String
  /-- The version, a `uint`. -/
  Version : Nat
  deriving DecidableEq, Repr

/-- An element received from the channel that `m.read` fills: a `*Migration`, or a value of
another dynamic type. -/
inductive Elem where
  /-- A migration descriptor. -/
  | mig (m : Migration)
  /-- A value that is not a `*Migration`. -/
  | other (e : GoError)
  deriving DecidableEq, Repr

/-- An argument of a log line. -/
inductive LogArg where
  /-- A string argument. -/
  | str (s : String)
  /-- An error argument. -/
  | err (e : GoError)
  deriving DecidableEq, Repr

/-- A call into the operating system's file interface. -/
inductive SysCall where
  /-- The call `os.ReadFile`. -/
  | ReadFile (p : Path)
  /-- The call `os.WriteFile`. -/
  | WriteFile (p : Path)
  /-- The call `os.Remove`. -/
  | Remove (p : Path)
  /-- The call `os.ReadDir`, also as made by `filepath.Walk`. -/
  | ReadDir (dir : String)
  /-- The call `os.Lstat` made by `filepath.Walk`. -/
  | Lstat (path : String)
  /-- The call `os.Open`. -/
  | Open (path : String)
  /-- The call `os.Create`. -/
  | Create (p : Path)
  /-- The call `io.Copy` into the file at `p`. -/
  | Copy (src : String) (p : Path)
  /-- The call `os.Chmod`. -/
  | Chmod (p : Path) (mode : Nat)
  /-- The call `Close` on the file opened at `path`. -/
  | Close (path : String)
  deriving DecidableEq, Repr

/-- Modelled from the spec: the type of the field `ds` is declared outside this file; it
holds the canonical source directory and the destination (working) directory. -/
structure DataSource where
  /-- The source directory. -/
  srcPath : String
  /-- The destination directory; empty when none is configured. -/
  destPath : String
  deriving DecidableEq, Repr

/-- Modelled from the spec: the type `Migrate` is declared outside this file; these are the
fields the four functions read. -/
structure Migrate where
  /-- The two directories. -/
  ds : DataSource
  /-- The capacity of the channel of migration descriptors. -/
  PrefetchMigrations : Nat
  deriving DecidableEq, Repr

/-- What lies outside the program and decides its calls: the answers of the migration
engine, and for each call into the operating system whether it fails (`none`: it does not). -/
structure Env where
  /-- The result of `m.Force(version)`. -/
  Force : Int → Option GoError
  /-- The result of `m.databaseDrv.Version()`. -/
  Version : Except GoError (Int × Bool)
  /-- The elements `m.read(from, to, ret)` sends on `ret` before closing it. -/
  read : Int → Int → List Elem
  /-- A failure of reading an existing file. -/
  readFileErr : Path → Option GoError
  /-- A failure of writing a file into an existing directory. -/
  writeFileErr : Path → Option GoError
  /-- A failure of removing an existing entry. -/
  removeErr : Path → Option GoError
  /-- A failure of listing an existing directory. -/
  readDirErr : String → Option GoError
  /-- A failure of `os.Lstat` on an existing entry. -/
  lstatErr : String → Option GoError
  /-- A failure of opening the source file at a path. -/
  openErr : String → Option GoError
  /-- A failure of creating a file in an existing directory. -/
  createErr : Path → Option GoError
  /-- A failure of copying the source file at a path, with the number of bytes that reached
  the destination before it. -/
  copyErr : String → Option (GoError × Nat)
  /-- A failure of changing the mode of an existing file. -/
  chmodErr : Path → Option GoError
  /-- A failure of closing the source file at a path. -/
  closeErr : String → Option GoError
  /-- The file mode creation mask of the process. -/
  umask : Nat

/-- The state the program acts on. -/
structure World where
  /-- The directories of the mutable file system with their entries, by path. -/
  dirs : String → Option (List (String × Node))
  /-- The trees that can be walked, by the path of their root. -/
  trees : String → Option SrcNode
  /-- The arguments of the calls of the engine's `Force`, oldest first. -/
  forced : List Int
  /-- The calls into the file system, oldest first. -/
  calls : List SysCall
  /-- The lines given to `m.Log.Printf`, oldest first: format and arguments. -/
  log : List (String × List LogArg)

/-- The call `m.Log.Printf(format, args...)`. -/
def Printf (w : World) (format : String) (args : List LogArg) : World :=
  { w with log := w.log ++ [(format, args)] }

/-- Records a call into the file system. -/
def World.call (w : World) (c : SysCall) : World :=
  { w with calls := w.calls ++ [c] }

/-- The entry at a path, if there is one. -/
def World.entry (w : World) (p : Path) : Option Node :=
  (w.dirs p.dir).bind (fun es => es.lookup p.base)

/-- Replaces the entry called `name`, or adds it when there is none. -/
def putEntry (name : String) (n : Node) : List (String × Node) → List (String × Node)
  | [] => [(name, n)]
  | (k, v) :: es => if k = name then (name, n) :: es else (k, v) :: putEntry name n es

/-- Replaces the listing of one directory. -/
def World.setDir (w : World) (dir : String) (es : List (String × Node)) : World :=
  { w with dirs := fun d => if d = dir then some es else w.dirs d }

/-- The permission bits a new file gets when created with `perm`: those the mask leaves. -/
def applyUmask (perm umask : Nat) : Nat :=
  perm - (perm &&& umask)

/-- The call `os.ReadFile(p)`. -/
def ReadFile (env : Env) (w : World) (p : Path) : Except GoError String × World :=
  let w1 := w.call (.ReadFile p)
  match w.entry p with
  | none => (.error (.notExist p.dir p.base), w1)
  | some .dir => (.error (.isDirectory p.dir p.base), w1)
  | some (.file data _) =>
    match env.readFileErr p with
    | some e => (.error e, w1)
    | none => (.ok data, w1)

/-- The call `os.WriteFile(p, data, perm)`: the file is created with `perm` (less the mask)
when absent and truncated otherwise, then `data` is written.  A failure is taken to leave the
file system as it was. -/
def WriteFile (env : Env) (w : World) (p : Path) (data : String) (perm : Nat) :
    Option GoError × World :=
  let w1 := w.call (.WriteFile p)
  match w.dirs p.dir with
  | none => (some (.notExist p.dir p.base), w1)
  | some es =>
    match env.writeFileErr p with
    | some e => (some e, w1)
    | none =>
      match es.lookup p.base with
      | some .dir => (some (.isDirectory p.dir p.base), w1)
      | some (.file _ mode) => (none, w1.setDir p.dir (putEntry p.base (.file data mode) es))
      | none =>
        (none, w1.setDir p.dir (putEntry p.base (.file data (applyUmask perm env.umask)) es))

/-- The call `os.Remove(p)`. -/
def Remove (env : Env) (w : World) (p : Path) : Option GoError × World :=
  let w1 := w.call (.Remove p)
  match w.dirs p.dir with
  | none => (some (.notExist p.dir p.base), w1)
  | some es =>
    match es.lookup p.base with
    | none => (some (.notExist p.dir p.base), w1)
    | some _ =>
      match env.removeErr p with
      | some e => (some e, w1)
      | none => (none, w1.setDir p.dir (es.filter (fun e => e.1 != p.base)))

/-- The call `os.ReadDir(dir)`: the entries of the directory.  The empty path names no
directory. -/
def ReadDir (env : Env) (w : World) (dir : String) :
    Except GoError (List (String × Node)) × World :=
  let w1 := w.call (.ReadDir dir)
  if dir = "" then (.error (.notExist dir ""), w1)
  else
    match w.dirs dir with
    | none => (.error (.notExist dir ""), w1)
    | some es =>
      match env.readDirErr dir with
      | some e => (.error e, w1)
      | none => (.ok es, w1)

/-- The call `m.Force(version)` of the engine: the call is recorded and its outcome read
from the environment. -/
def Force (env : Env) (w : World) (version : Int) : Option GoError × World :=
  (env.Force version, { w with forced := w.forced ++ [version] })

/-! ## The checkpoint -/

/-- The constant `lastSuccessfulMigrationFile`. -/
def lastSuccessfulMigrationFile : String := "lastSuccessfulMigration"

/-- The method `HandleDirtyState`. -/
def HandleDirtyState (env : Env) (m : Migrate) (w : World) : Option GoError × World :=
  let lastSuccessfulMigrationPath := filepathJoin m.ds.destPath lastSuccessfulMigrationFile
  match ReadFile env w lastSuccessfulMigrationPath with
  | (.error err, w1) => (some err, w1)
  | (.ok lastVersionBytes, w1) =>
    let lastVersionStr := TrimSpace lastVersionBytes
    match ParseUint lastVersionStr with
    | .error err => (some (Wrap err "failed to parse last successful migration version"), w1)
    | .ok lastVersion =>
      match Force env w1 (intOfUint lastVersion) with
      | (some err, w2) => (some (Wrap err "failed to apply last successful migration"), w2)
      | (none, w2) =>
        let w3 := Printf w2 "Successfully applied migration: %s" [.str lastVersionStr]
        match Remove env w3 lastSuccessfulMigrationPath with
        | (some err, w4) => (some err, w4)
        | (none, w4) =>
          (none, Printf w4 "Successfully deleted file: %s" [.str lastSuccessfulMigrationPath.text])

/-- The loop `for r := range ret` of `HandleMigrationFailure` over the elements still to be
received, `lastSuccessfulMigration` being the text kept so far.  The result is the text kept
when the loop is left, by `break` or at the end of the channel. -/
def lastSuccessfulLoop (failedVersion : Int) : List Elem → String → String
  | [], lastSuccessfulMigration => lastSuccessfulMigration
  | .mig mig :: rest, lastSuccessfulMigration =>
    if mig.Version = uintOfInt failedVersion then lastSuccessfulMigration
    else lastSuccessfulLoop failedVersion rest (Itoa (intOfUint mig.Version))
  | .other _ :: rest, lastSuccessfulMigration =>
    lastSuccessfulLoop failedVersion rest lastSuccessfulMigration

/-- The method `HandleMigrationFailure`. -/
def HandleMigrationFailure (env : Env) (m : Migrate) (curVersion : Int) (v : Nat) (w : World) :
    Option GoError × World :=
  match env.Version with
  | .error err => (some err, w)
  | .ok (failedVersion, _) =>
    let lastSuccessfulMigration := Itoa curVersion
    let ret := env.read curVersion (intOfUint v)
    let lastSuccessfulMigration := lastSuccessfulLoop failedVersion ret lastSuccessfulMigration
    let w1 := Printf w "migration failed, last successful migration version: %s"
      [.str lastSuccessfulMigration]
    let lastSuccessfulMigrationPath := filepathJoin m.ds.destPath lastSuccessfulMigrationFile
    match WriteFile env w1 lastSuccessfulMigrationPath lastSuccessfulMigration 0o644 with
    | (some err, w2) => (some err, w2)
    | (none, w2) => (none, w2)

/-! ## Pruning the destination directory -/

/-- The body of the loop of `CleanupFiles` for one entry of the listing. -/
def cleanupEntry (env : Env) (m : Migrate) (targetVersion : Nat) (w : World)
    (file : String × Node) : World :=
  let fileName := file.1
  if !HasSuffix fileName "down.sql" && !HasSuffix fileName "up.sql" then w
  else
    let versionEnd := Index fileName "_"
    if versionEnd = -1 then w
    else
      match ParseUint (sliceTo fileName versionEnd) with
      | .error err =>
        Printf w "Skipping file %s due to version parse error: %v" [.str fileName, .err err]
      | .ok fileVersion =>
        if fileVersion > targetVersion then
          match Remove env w (filepathJoin m.ds.destPath fileName) with
          | (some err, w1) => Printf w1 "Failed to delete file %s: %v" [.str fileName, .err err]
          | (none, w1) => Printf w1 "Deleted file: %s" [.str fileName]
        else w

/-- The method `CleanupFiles`. -/
def CleanupFiles (env : Env) (m : Migrate) (v : Nat) (w : World) : Option GoError × World :=
  if m.ds.destPath = "" then (none, w)
  else
    match ReadDir env w m.ds.destPath with
    | (.error err, w1) => (some err, w1)
    | (.ok files, w1) =>
      let targetVersion := v
      (none, files.foldl (cleanupEntry env m targetVersion) w1)

/-! ## Mirroring the source directory -/

/-- The type `filepath.WalkFunc`, acting on the world. -/
abbrev WalkFunc := String → Option FileInfo → Option GoError → World → Option GoError × World

/-- The path `filepath.Join(path, name)` of an entry of a walked directory. -/
def walkJoin (path name : String) : String :=
  if path = "" then name else path ++ "/" ++ name

/-- The description `os.Lstat` gives of a source entry. -/
def SrcNode.info : SrcNode → FileInfo
  | .file name mode data => { Name := name, IsDir := false, Mode := mode, content := data }
  | .dir name _ => { Name := name, IsDir := true, Mode := 0o755, content := "" }

mutual
/-- The function `walk` of `path/filepath`: visits the entry at `path`, then, for a
directory, its entries. -/
def walk (env : Env) (walkFn : WalkFunc) (path : String) :
    SrcNode → World → Option GoError × World
  | .file name mode data, w => walkFn path (some (SrcNode.file name mode data).info) none w
  | .dir name children, w =>
    let w0 := w.call (.ReadDir path)
    let err := env.readDirErr path
    match walkFn path (some (SrcNode.dir name children).info) err w0 with
    | (err1, w1) =>
      if err.isSome || err1.isSome then (err1, w1)
      else walkNames env walkFn path children w1
/-- The loop of `walk` over the names of a directory. -/
def walkNames (env : Env) (walkFn : WalkFunc) (path : String) :
    List SrcNode → World → Option GoError × World
  | [], w => (none, w)
  | c :: cs, w =>
    let filename := walkJoin path c.name
    let w0 := w.call (.Lstat filename)
    match env.lstatErr filename with
    | some e =>
      match walkFn filename none (some e) w0 with
      | (some err, w1) =>
        if err ≠ GoError.SkipDir then (some err, w1) else walkNames env walkFn path cs w1
      | (none, w1) => walkNames env walkFn path cs w1
    | none =>
      match walk env walkFn filename c w0 with
      | (some err, w1) =>
        if !c.isDir || err ≠ GoError.SkipDir then (some err, w1)
        else walkNames env walkFn path cs w1
      | (none, w1) => walkNames env walkFn path cs w1
end

/-- The call `filepath.Walk(root, fn)`. -/
def Walk (env : Env) (root : String) (fn : WalkFunc) (w : World) : Option GoError × World :=
  let w0 := w.call (.Lstat root)
  let r :=
    match w.trees root with
    | none => fn root none (some (.notExist root "")) w0
    | some t =>
      match env.lstatErr root with
      | some e => fn root none (some e) w0
      | none => walk env fn root t w0
  match r with
  | (some err, w1) => if err = GoError.SkipDir then (none, w1) else (some err, w1)
  | (none, w1) => (none, w1)

/-- The call `os.Open(src)` on the file a walk has described. -/
def Open (env : Env) (w : World) (src : String) : Option GoError × World :=
  (env.openErr src, w.call (.Open src))

/-- The call `os.Create(dest)`: the file is created empty with mode `0666` (less the mask)
when absent, and truncated otherwise. -/
def Create (env : Env) (w : World) (dest : Path) : Option GoError × World :=
  let w1 := w.call (.Create dest)
  match w.dirs dest.dir with
  | none => (some (.notExist dest.dir dest.base), w1)
  | some es =>
    match env.createErr dest with
    | some e => (some e, w1)
    | none =>
      match es.lookup dest.base with
      | some .dir => (some (.isDirectory dest.dir dest.base), w1)
      | some (.file _ mode) => (none, w1.setDir dest.dir (putEntry dest.base (.file "" mode) es))
      | none =>
        (none, w1.setDir dest.dir
          (putEntry dest.base (.file "" (applyUmask 0o666 env.umask)) es))

/-- Sets the content of the file at a path, keeping its mode. -/
def World.setData (w : World) (p : Path) (data : String) : World :=
  match w.dirs p.dir, w.entry p with
  | some es, some (.file _ mode) => w.setDir p.dir (putEntry p.base (.file data mode) es)
  | _, _ => w

/-- The call `io.Copy(destFile, srcFile)` from the file opened at `src`, whose bytes are
`content`, into the file created at `dest`.  On a failure the bytes copied so far stay. -/
def Copy (env : Env) (w : World) (src : String) (content : String) (dest : Path) :
    Option GoError × World :=
  let w1 := w.call (.Copy src dest)
  match env.copyErr src with
  | some (e, written) => (some e, w1.setData dest ⟨content.data.take written⟩)
  | none => (none, w1.setData dest content)

/-- The call `os.Chmod(dest, mode)`. -/
def Chmod (env : Env) (w : World) (dest : Path) (mode : Nat) : Option GoError × World :=
  let w1 := w.call (.Chmod dest mode)
  match w.dirs dest.dir, w.entry dest with
  | some es, some (.file data _) =>
    match env.chmodErr dest with
    | some e => (some e, w1)
    | none => (none, w1.setDir dest.dir (putEntry dest.base (.file data mode) es))
  | some _, some .dir =>
    match env.chmodErr dest with
    | some e => (some e, w1)
    | none => (none, w1)
  | _, _ => (some (.notExist dest.dir dest.base), w1)

/-- The deferred function of the walk function of `CopyFiles`: closes the source file and
logs a failure to do so.  It runs after the result of the walk function is fixed. -/
def closeSrc (env : Env) (w : World) (src : String) : World :=
  let w1 := w.call (.Close src)
  match env.closeErr src with
  | some e => Printf w1 "failed to close file %s: %s" [.str "srcFile.Name", .err e]
  | none => w1

/-- The walk function that `CopyFiles` passes to `filepath.Walk`. -/
def copyWalkFn (env : Env) (m : Migrate) : WalkFunc := fun src info err w =>
  match err with
  | some e => (some e, w)
  | none =>
    match info with
    | none => (some (.sys "nil FileInfo" 0), w)
    | some info =>
      if info.IsDir then
        if info.Name = "tests" then
          (some .SkipDir, Printf w "Ignoring directory %s" [.str info.Name])
        else (none, w)
      else if info.Name = "current.sql" then
        (none, Printf w "Ignoring file %s" [.str info.Name])
      else
        let dest := filepathJoin m.ds.destPath info.Name
        match Open env w src with
        | (some e, w1) => (some e, w1)
        | (none, w1) =>
          match Create env w1 dest with
          | (some e, w2) => (some e, closeSrc env w2 src)
          | (none, w2) =>
            match Copy env w2 src info.content dest with
            | (none, w3) => (none, closeSrc env w3 src)
            | (some _, w3) =>
              match Chmod env w3 dest info.Mode with
              | (r, w4) => (r, closeSrc env w4 src)

/-- The method `CopyFiles`. -/
def CopyFiles (env : Env) (m : Migrate) (w : World) : Option GoError × World :=
  if m.ds.destPath = "" then (none, w)
  else
    match ReadDir env w m.ds.destPath with
    | (.error err, w1) => (some err, w1)
    | (.ok _, w1) =>
      let w2 := Printf w1 "Copying files from %s to %s" [.str m.ds.srcPath, .str m.ds.destPath]
      Walk env m.ds.srcPath (copyWalkFn env m) w2

/-! ## What the specification says, in its own words -/

/-- Whether a character is one of the decimal digits `0` to `9`. -/
def isDecimalDigit (c : Char) : Bool :=
  decide (48 ≤ c.toNat) && decide (c.toNat ≤ 57)

/-- The number a text of decimal digits denotes. -/
def decimalValue (digits : List Char) : Nat :=
  digits.foldl (fun n c => n * 10 + (c.toNat - 48)) 0

/-- The path `<destPath>/lastSuccessfulMigration` of the checkpoint file. -/
def checkpointPath (m : Migrate) : Path :=
  filepathJoin m.ds.destPath lastSuccessfulMigrationFile

/-- The migration descriptors among the elements of a stream, in order. -/
def descriptors : List Elem → List Migration
  | [] => []
  | .mig d :: rest => d :: descriptors rest
  | .other _ :: rest => descriptors rest

/-- Modelled from the spec: the method `read` is declared outside this file.  For the
bounds `lo` and `hi` it "emits ordered migration descriptors for the half-open range" from
`lo` to `hi`: the versions of the descriptors it sends increase strictly, and each lies in
that range. -/
def ReadsRange (lo hi : Int) (stream : List Elem) : Prop :=
  (descriptors stream).Pairwise (fun a b => a.Version < b.Version) ∧
    ∀ d ∈ descriptors stream, lo ≤ (d.Version : Int) ∧ (d.Version : Int) < hi

/-- Whether a stream keeps the contract of `read` can be computed. -/
instance instDecidableReadsRange (lo hi : Int) (stream : List Elem) :
    Decidable (ReadsRange lo hi stream) := by
  unfold ReadsRange
  infer_instance

/-- The checkpoint text the specification asks for: the decimal form of the version of the
last descriptor before the first one whose version equals `failedVersion`, and the decimal
form of `curVersion` when no descriptor comes before it. -/
def specCheckpoint (curVersion failedVersion : Int) (stream : List Elem) : String :=
  match ((descriptors stream).takeWhile
      (fun d => decide ((d.Version : Int) ≠ failedVersion))).getLast? with
  | some d => Itoa (d.Version : Int)
  | none => Itoa curVersion

/-- The entries the specification lets pruning delete: the name ends in `up.sql` or
`down.sql`, contains an underscore, and the text before the first underscore parses as an
unsigned integer strictly greater than the target version. -/
def PruneEligible (targetVersion : Nat) (name : String) : Prop :=
  ("up.sql".data <:+ name.data ∨ "down.sql".data <:+ name.data) ∧ '_' ∈ name.data ∧
    ∃ n, ParseUint ⟨name.data.takeWhile (fun c => c != '_')⟩ = .ok n ∧ targetVersion < n

/-- A migration file name in the specification's sense: the decimal digits `digits`, then an
underscore, and ending in `up.sql` or `down.sql`.  Its encoded version is
`decimalValue digits`. -/
def IsMigrationFile (name : String) (digits : List Char) : Prop :=
  digits ≠ [] ∧ (∀ c ∈ digits, isDecimalDigit c = true) ∧
    (∃ rest, name.data = digits ++ '_' :: rest) ∧
    ("up.sql".data <:+ name.data ∨ "down.sql".data <:+ name.data)

/-- Whether the loop of `CleanupFiles` removes the entries called `name`: the three tests
of the loop pass and the removal does not fail. -/
def prunes (env : Env) (m : Migrate) (targetVersion : Nat) (name : String) : Bool :=
  (HasSuffix name "down.sql" || HasSuffix name "up.sql") &&
    (Index name "_" != -1) &&
    (match ParseUint (sliceTo name (Index name "_")) with
      | .ok fileVersion => decide (fileVersion > targetVersion)
      | .error _ => false) &&
    (env.removeErr (filepathJoin m.ds.destPath name)).isNone

/-! ## Concrete inputs -/

/-- An environment in which no call fails, the mask is `022`, the reader sends `stream`
and the engine reports `failedVersion` as its dirty version. -/
def Env.calm (stream : List Elem) (failedVersion : Int) : Env where
  Force := fun _ => none
  Version := .ok (failedVersion, true)
  read := fun _ _ => stream
  readFileErr := fun _ => none
  writeFileErr := fun _ => none
  removeErr := fun _ => none
  readDirErr := fun _ => none
  lstatErr := fun _ => none
  openErr := fun _ => none
  createErr := fun _ => none
  copyErr := fun _ => none
  chmodErr := fun _ => none
  closeErr := fun _ => none
  umask := 0o022

/-- The world with one directory `dir` holding `es`, one tree `t` rooted at `root`, and no
call made so far. -/
def World.init (dir : String) (es : List (String × Node)) (root : String)
    (t : Option SrcNode) : World where
  dirs := fun d => if d = dir then some es else none
  trees := fun r => if r = root then t else none
  forced := []
  calls := []
  log := []

/-- The stream of the migration descriptors with the given versions. -/
def versions (vs : List Nat) : List Elem :=
  vs.map (fun v => Elem.mig { Identifier := "m", Version := v })

/-- A runner with source directory `src` and destination directory `dest`. -/
def runner : Migrate :=
  { ds := { srcPath := "src", destPath := "dest" }, PrefetchMigrations := 10 }

/-- A runner for which no destination directory is configured. -/
def runnerNoDest : Migrate :=
  { ds := { srcPath := "src", destPath := "" }, PrefetchMigrations := 10 }

/-- The source tree `5_x.up.sql` (mode `0755`), `current.sql`, `tests/9_y.up.sql`. -/
def sampleTree : SrcNode :=
  .dir "src" [.file "5_x.up.sql" 0o755 "abc", .file "current.sql" 0o644 "cur",
    .dir "tests" [.file "9_y.up.sql" 0o644 "t"]]

/-- The source tree of two migration files `1_a.up.sql` and `2_b.up.sql`. -/
def twoFileTree : SrcNode :=
  .dir "src" [.file "1_a.up.sql" 0o644 "abc", .file "2_b.up.sql" 0o644 "xyz"]

/-- The environment in which the byte copy of `src/1_a.up.sql` fails with `ENOSPC` after
one byte and every other call succeeds. -/
def Env.copyFails : Env :=
  { Env.calm [] 0 with
    copyErr := fun src => if src = "src/1_a.up.sql" then some (.sys "write" 28, 1) else none }

/-! ## Decimal text: formatting and parsing -/

theorem foldl_digit_le (cs : List Char) (n : Nat) :
    n ≤ cs.foldl (fun n c => n * 10 + (c.toNat - 48)) n := by
  induction cs generalizing n with
  | nil => simp
  | cons c cs ih =>
    simp only [List.foldl_cons]
    exact le_trans (by omega) (ih _)

theorem parseDigits_eq_ok (s0 : String) (cs : List Char) (n : Nat)
    (hd : ∀ c ∈ cs, isDecimalDigit c = true)
    (hv : cs.foldl (fun n c => n * 10 + (c.toNat - 48)) n < 2 ^ 64) :
    parseDigits s0 cs n = .ok (cs.foldl (fun n c => n * 10 + (c.toNat - 48)) n) := by
  induction cs generalizing n with
  | nil => simp [parseDigits]
  | cons c cs ih =>
    have hc : 48 ≤ c.toNat ∧ c.toNat ≤ 57 := by
      have := hd c (List.mem_cons_self _ _)
      simpa [isDecimalDigit] using this
    simp only [List.foldl_cons] at hv ⊢
    have hle := foldl_digit_le cs (n * 10 + (c.toNat - 48))
    have hlt : n * 10 + (c.toNat - 48) < 2 ^ 64 := lt_of_le_of_lt hle hv
    have h64 : (2 : Nat) ^ 64 = 18446744073709551616 := by norm_num
    have hcut : ¬ n ≥ cutoff := by
      simp only [cutoff, maxUint64]
      norm_num
      omega
    have h1 : n * 10 % 2 ^ 64 = n * 10 := Nat.mod_eq_of_lt (by omega)
    have h2 : (n * 10 + (c.toNat - 48)) % 2 ^ 64 = n * 10 + (c.toNat - 48) :=
      Nat.mod_eq_of_lt hlt
    have hchk : ¬ (n * 10 + (c.toNat - 48) < n * 10 ∨ n * 10 + (c.toNat - 48) > maxUint64) := by
      simp only [maxUint64]
      omega
    rw [parseDigits]
    simp only [hc, and_self, if_true, hcut, if_false, h1, h2, hchk]
    exact ih _ (fun c' hc' => hd c' (List.mem_cons_of_mem _ hc')) hv

theorem parseDigits_lt (s0 : String) (cs : List Char) (n r : Nat) (hn : n < 2 ^ 64)
    (h : parseDigits s0 cs n = .ok r) : r < 2 ^ 64 := by
  induction cs generalizing n with
  | nil =>
    simp only [parseDigits, Except.ok.injEq] at h
    omega
  | cons c cs ih =>
    rw [parseDigits] at h
    split at h
    · split at h
      · cases h
      · simp only at h
        split at h
        · cases h
        · exact ih _ (Nat.mod_lt _ (by norm_num)) h
    · cases h

theorem ParseUint_lt (s : String) (r : Nat) (h : ParseUint s = .ok r) : r < 2 ^ 64 := by
  unfold ParseUint at h
  split at h
  · cases h
  · exact parseDigits_lt s _ 0 r (by norm_num) h

theorem digitChar_toNat : ∀ d, d < 10 → (digitChar d).toNat = d + 48 := by decide

theorem formatBits_value (fuel u : Nat) (acc : List Char) (h : u < fuel) :
    (formatBits fuel u acc).foldl (fun n c => n * 10 + (c.toNat - 48)) 0
      = acc.foldl (fun n c => n * 10 + (c.toNat - 48)) u := by
  induction fuel generalizing u acc with
  | zero => omega
  | succ f ih =>
    rw [formatBits]
    split
    · rw [ih (u / 10) _ (by omega)]
      simp only [List.foldl_cons]
      rw [digitChar_toNat _ (Nat.mod_lt _ (by norm_num))]
      congr 1
      omega
    · simp only [List.foldl_cons]
      rw [digitChar_toNat _ (by omega)]
      congr 1
      omega

theorem formatBits_digits (fuel u : Nat) (acc : List Char)
    (hacc : ∀ c ∈ acc, isDecimalDigit c = true) :
    ∀ c ∈ formatBits fuel u acc, isDecimalDigit c = true := by
  have hdig : ∀ d, d < 10 → isDecimalDigit (digitChar d) = true := by decide
  induction fuel generalizing u acc with
  | zero => simpa [formatBits] using hacc
  | succ f ih =>
    rw [formatBits]
    split
    · apply ih
      intro c hc
      rcases List.mem_cons.1 hc with rfl | hc
      · exact hdig _ (Nat.mod_lt _ (by norm_num))
      · exact hacc c hc
    · intro c hc
      rcases List.mem_cons.1 hc with rfl | hc
      · exact hdig _ (by omega)
      · exact hacc c hc

theorem formatBits_ne_nil (fuel u : Nat) (acc : List Char) (h : 0 < fuel) :
    formatBits fuel u acc ≠ [] := by
  induction fuel generalizing u acc with
  | zero => omega
  | succ f ih =>
    rw [formatBits]
    split
    · rcases Nat.eq_zero_or_pos f with hf | hf
      · subst hf; simp [formatBits]
      · exact ih _ _ hf
    · simp

theorem FormatUint_digits (u : Nat) : ∀ c ∈ (FormatUint u).data, isDecimalDigit c = true :=
  formatBits_digits _ _ _ (by simp)

theorem FormatUint_ne_nil (u : Nat) : (FormatUint u).data ≠ [] :=
  formatBits_ne_nil _ _ _ (by omega)

theorem decimalValue_FormatUint (u : Nat) : decimalValue (FormatUint u).data = u := by
  simp [decimalValue, FormatUint, formatBits_value (u + 1) u [] (by omega)]

/-- Parsing the decimal text of a 64-bit unsigned number gives the number back. -/
theorem ParseUint_FormatUint (u : Nat) (h : u < 2 ^ 64) : ParseUint (FormatUint u) = .ok u := by
  have hv := decimalValue_FormatUint u
  unfold decimalValue at hv
  rw [ParseUint, if_neg (FormatUint_ne_nil u),
    parseDigits_eq_ok _ _ 0 (FormatUint_digits u) (by rw [hv]; exact h), hv]

theorem isSpace_of_digit : ∀ c, isDecimalDigit c = true → isSpace c = false := by
  intro c h
  simp only [isDecimalDigit, Bool.and_eq_true, decide_eq_true_eq] at h
  simp only [isSpace, Bool.or_eq_false_iff, Bool.and_eq_false_iff, decide_eq_false_iff_not,
    beq_eq_false_iff_ne, ne_eq]
  omega

theorem dropWhile_of_all {p : Char → Bool} (pre l : List Char) (h : ∀ c ∈ pre, p c = true) :
    (pre ++ l).dropWhile p = l.dropWhile p := by
  induction pre with
  | nil => rfl
  | cons c pre ih =>
    simp only [List.cons_append, List.dropWhile_cons, h c (List.mem_cons_self _ _), if_true]
    exact ih (fun c' hc' => h c' (List.mem_cons_of_mem _ hc'))

theorem dropWhile_of_head {p : Char → Bool} (l : List Char)
    (h : ∀ c, l.head? = some c → p c = false) : l.dropWhile p = l := by
  cases l with
  | nil => rfl
  | cons c cs => simp [List.dropWhile_cons, h c rfl]

/-- Trimming removes white space around a non-empty text free of white space. -/
theorem TrimSpace_surrounded (pre mid post : List Char) (hne : mid ≠ [])
    (hpre : ∀ c ∈ pre, isSpace c = true) (hpost : ∀ c ∈ post, isSpace c = true)
    (hmid : ∀ c ∈ mid, isSpace c = false) :
    TrimSpace ⟨pre ++ mid ++ post⟩ = ⟨mid⟩ := by
  unfold TrimSpace
  congr 1
  show ((List.dropWhile isSpace (pre ++ mid ++ post)).reverse.dropWhile isSpace).reverse = mid
  rw [List.append_assoc, dropWhile_of_all pre _ hpre]
  rw [dropWhile_of_head (mid ++ post)]
  · rw [List.reverse_append, dropWhile_of_all post.reverse _ (by simpa using hpost)]
    rw [dropWhile_of_head, List.reverse_reverse]
    intro c hc
    apply hmid
    have : c ∈ mid.reverse := List.mem_of_mem_head? hc
    simpa using this
  · intro c hc
    cases mid with
    | nil => exact absurd rfl hne
    | cons a as =>
      simp only [List.cons_append, List.head?_cons, Option.some.injEq] at hc
      subst hc
      exact hmid _ (List.mem_cons_self _ _)

theorem intOfUint_small (u : Nat) (h : u < 2 ^ 63) : intOfUint u = (u : Int) := by
  unfold intOfUint
  norm_num at h ⊢
  split <;> omega

theorem uintOfInt_eq_iff (u : Nat) (i : Int) (hu : u < 2 ^ 63)
    (hi : -2 ^ 63 ≤ i ∧ i < 2 ^ 63) : u = uintOfInt i ↔ (u : Int) = i := by
  unfold uintOfInt
  norm_num at hu hi ⊢
  omega

/-! ## The mutable file system -/

theorem lookup_putEntry (name : String) (n : Node) (es : List (String × Node)) :
    (putEntry name n es).lookup name = some n := by
  induction es with
  | nil => simp [putEntry, List.lookup]
  | cons e es ih =>
    obtain ⟨k, v⟩ := e
    by_cases h : k = name
    · simp [putEntry, h, List.lookup]
    · have h' : (name == k) = false := by simpa using fun e => h e.symm
      simp [putEntry, h, List.lookup, h', ih]

theorem lookup_filter_ne (name : String) (es : List (String × Node)) :
    (es.filter (fun e => e.1 != name)).lookup name = none := by
  simp only [List.lookup_eq_none_iff, List.mem_filter, bne_iff_ne, ne_eq, beq_eq_false_iff_ne]
  rintro ⟨a, b⟩ ⟨_, h1⟩ h2
  exact h1 h2.symm

theorem entry_setDir (w : World) (dir base : String) (es : List (String × Node)) :
    (w.setDir dir es).entry { dir := dir, base := base } = es.lookup base := by
  simp [World.entry, World.setDir]

theorem WriteFile_entry (env : Env) (w : World) (p : Path) (data : String) (perm : Nat)
    (h : (WriteFile env w p data perm).1 = none) :
    ∃ mode, (WriteFile env w p data perm).2.entry p = some (.file data mode) := by
  obtain ⟨dir, base⟩ := p
  unfold WriteFile at h ⊢
  simp only at h ⊢
  split at h
  · cases h
  · split at h
    · cases h
    · split at h
      · cases h
      · exact ⟨_, by rw [entry_setDir, lookup_putEntry]⟩
      · exact ⟨_, by rw [entry_setDir, lookup_putEntry]⟩

/-! ## The failure checkpoint -/

theorem lastSuccessfulLoop_eq (failedVersion : Int)
    (hint : -2 ^ 63 ≤ failedVersion ∧ failedVersion < 2 ^ 63) (stream : List Elem)
    (last : String) (hsmall : ∀ d ∈ descriptors stream, d.Version < 2 ^ 63) :
    lastSuccessfulLoop failedVersion stream last =
      match ((descriptors stream).takeWhile
          (fun d => decide ((d.Version : Int) ≠ failedVersion))).getLast? with
      | some d => Itoa (d.Version : Int)
      | none => last := by
  induction stream generalizing last with
  | nil => simp [lastSuccessfulLoop, descriptors]
  | cons e rest ih =>
    cases e with
    | other x => simpa [lastSuccessfulLoop, descriptors] using ih last hsmall
    | mig d =>
      have hd : d.Version < 2 ^ 63 := hsmall d (by simp [descriptors])
      have hrest : ∀ d' ∈ descriptors rest, d'.Version < 2 ^ 63 :=
        fun d' h' => hsmall d' (by simp [descriptors, h'])
      have hiff := uintOfInt_eq_iff d.Version failedVersion hd hint
      by_cases heq : d.Version = uintOfInt failedVersion
      · have : (d.Version : Int) = failedVersion := hiff.1 heq
        rw [lastSuccessfulLoop, if_pos heq]
        simp [descriptors, List.takeWhile_cons, this]
      · have hne : ¬ (d.Version : Int) = failedVersion := fun h => heq (hiff.2 h)
        rw [lastSuccessfulLoop, if_neg heq, ih _ hrest, intOfUint_small _ hd]
        simp only [descriptors, List.takeWhile_cons, ne_eq, hne, not_false_eq_true,
          decide_True, if_true]
        rw [List.getLast?_cons]
        cases (List.takeWhile (fun d => decide ¬(d.Version : Int) = failedVersion)
            (descriptors rest)).getLast? <;> rfl

theorem HandleMigrationFailure_eq (env : Env) (m : Migrate) (curVersion : Int) (v : Nat)
    (w : World) (failedVersion : Int) (dirty : Bool)
    (hver : env.Version = .ok (failedVersion, dirty)) :
    HandleMigrationFailure env m curVersion v w =
      WriteFile env
        (Printf w "migration failed, last successful migration version: %s"
          [.str (lastSuccessfulLoop failedVersion (env.read curVersion (intOfUint v))
            (Itoa curVersion))])
        (checkpointPath m)
        (lastSuccessfulLoop failedVersion (env.read curVersion (intOfUint v)) (Itoa curVersion))
        0o644 := by
  unfold HandleMigrationFailure checkpointPath
  rw [hver]
  simp only
  split <;> simp_all

theorem intOfUint_lt (u : Nat) : intOfUint u < 2 ^ 63 := by
  unfold intOfUint
  have h := Nat.mod_lt u (show 0 < 2 ^ 64 by norm_num)
  norm_num at h ⊢
  split <;> omega

/-- A stream that `read` sends for an upper bound of type `int` holds only versions below
2^63. -/
theorem ReadsRange_small (lo : Int) (v : Nat) (stream : List Elem)
    (h : ReadsRange lo (intOfUint v) stream) :
    ∀ d ∈ descriptors stream, d.Version < 2 ^ 63 := by
  intro d hd
  have h1 := (h.2 d hd).2
  have h2 := intOfUint_lt v
  norm_num at h1 h2 ⊢
  omega

/-- C1: for every stream the reader sends for the range from `curVersion` to `int(v)` and
every failed version the engine reports, when the version query and the write succeed, the
text `HandleMigrationFailure` persists at `<destPath>/lastSuccessfulMigration`, whatever was
there before, is the decimal form of the version of the last descriptor before the first one
whose version equals the failed version, and the decimal form of `curVersion` when no
descriptor comes before it; elements that are not descriptors do not matter. -/
theorem HandleMigrationFailure_checkpoint (env : Env) (m : Migrate) (curVersion : Int) (v : Nat)
    (w : World) (failedVersion : Int) (dirty : Bool)
    (hver : env.Version = .ok (failedVersion, dirty))
    (hint : -2 ^ 63 ≤ failedVersion ∧ failedVersion < 2 ^ 63)
    (hread : ReadsRange curVersion (intOfUint v) (env.read curVersion (intOfUint v)))
    (hnil : (HandleMigrationFailure env m curVersion v w).1 = none) :
    ∃ mode, (HandleMigrationFailure env m curVersion v w).2.entry (checkpointPath m) =
      some (.file (specCheckpoint curVersion failedVersion
        (env.read curVersion (intOfUint v))) mode) := by
  have hsmall := ReadsRange_small curVersion v _ hread
  have htext : lastSuccessfulLoop failedVersion (env.read curVersion (intOfUint v))
      (Itoa curVersion) =
      specCheckpoint curVersion failedVersion (env.read curVersion (intOfUint v)) := by
    rw [lastSuccessfulLoop_eq failedVersion hint _ _ hsmall]
    rfl
  rw [HandleMigrationFailure_eq env m curVersion v w failedVersion dirty hver, htext] at hnil ⊢
  exact WriteFile_entry _ _ _ _ _ hnil

/-- C1, witness: the stream `[2,3,4,5,6]` sent for the range from 2 to 7, with failed
version 5 and `curVersion` 2, persists `4`, also over an older checkpoint; with failed
version 2, the first of the stream, it persists `2`. -/
theorem HandleMigrationFailure_checkpoint_witness :
    (∃ mode, (HandleMigrationFailure (Env.calm (versions [2, 3, 4, 5, 6]) 5) runner 2 7
        (World.init "dest" [("lastSuccessfulMigration", .file "1" 0o600)] "src"
          none)).2.entry (checkpointPath runner) =
      some (.file (specCheckpoint 2 5 ((Env.calm (versions [2, 3, 4, 5, 6]) 5).read 2
        (intOfUint 7))) mode)) ∧
    specCheckpoint 2 5 (versions [2, 3, 4, 5, 6]) = "4" ∧
    specCheckpoint 2 2 (versions [2, 3, 4, 5, 6]) = "2" :=
  ⟨HandleMigrationFailure_checkpoint (Env.calm (versions [2, 3, 4, 5, 6]) 5) runner 2 7
    (World.init "dest" [("lastSuccessfulMigration", .file "1" 0o600)] "src" none) 5 true rfl
    (by decide) (by decide) (by decide), by decide, by decide⟩

/-! ## Recovery from a dirty state -/

theorem ReadFile_of_entry (env : Env) (w : World) (p : Path) (data : String) (mode : Nat)
    (hfile : w.entry p = some (.file data mode)) (hread : env.readFileErr p = none) :
    ReadFile env w p = (.ok data, w.call (.ReadFile p)) := by
  simp [ReadFile, hfile, hread]

theorem ReadFile_world (env : Env) (w : World) (p : Path) :
    (ReadFile env w p).2 = w.call (.ReadFile p) := by
  unfold ReadFile
  simp only
  split
  · rfl
  · rfl
  · split <;> rfl

theorem dirs_of_entry (w : World) (dir base : String) (n : Node)
    (h : w.entry { dir := dir, base := base } = some n) :
    ∃ es, w.dirs dir = some es ∧ es.lookup base = some n := by
  simp only [World.entry] at h
  cases hd : w.dirs dir with
  | none => simp [hd] at h
  | some es => exact ⟨es, rfl, by simpa [hd] using h⟩

/-- The run of `HandleDirtyState` on a readable checkpoint file that holds the decimal text
of a version below 2^63 between white space, when `Force` and the removal succeed. -/
theorem HandleDirtyState_of_checkpoint (env : Env) (m : Migrate) (w : World) (V : Nat)
    (pre post : List Char) (mode : Nat) (es : List (String × Node)) (hV : V < 2 ^ 63)
    (hpre : ∀ c ∈ pre, isSpace c = true) (hpost : ∀ c ∈ post, isSpace c = true)
    (hes : w.dirs m.ds.destPath = some es)
    (hlook : es.lookup lastSuccessfulMigrationFile =
      some (.file ⟨pre ++ (FormatUint V).data ++ post⟩ mode))
    (hread : env.readFileErr (checkpointPath m) = none)
    (hforce : env.Force (V : Int) = none)
    (hrm : env.removeErr (checkpointPath m) = none) :
    HandleDirtyState env m w =
      (none, Printf
        (((Printf ({ (w.call (.ReadFile (checkpointPath m))) with
              forced := w.forced ++ [(V : Int)] })
            "Successfully applied migration: %s" [.str (FormatUint V)]).call
              (.Remove (checkpointPath m))).setDir m.ds.destPath
            (es.filter (fun e => e.1 != lastSuccessfulMigrationFile)))
        "Successfully deleted file: %s" [.str (checkpointPath m).text]) := by
  have htrim : TrimSpace ⟨pre ++ (FormatUint V).data ++ post⟩ = FormatUint V :=
    TrimSpace_surrounded pre _ post (FormatUint_ne_nil V) hpre hpost
      (fun c hc => isSpace_of_digit c (FormatUint_digits V c hc))
  have hparse : ParseUint (FormatUint V) = .ok V := ParseUint_FormatUint V (by omega)
  have hint : intOfUint V = (V : Int) := intOfUint_small V hV
  have hfile : w.entry (checkpointPath m) =
      some (.file ⟨pre ++ (FormatUint V).data ++ post⟩ mode) := by
    simp [World.entry, checkpointPath, filepathJoin, hes, hlook]
  unfold HandleDirtyState
  simp only [← checkpointPath.eq_1]
  rw [ReadFile_of_entry env w _ _ _ hfile hread]
  simp only [htrim, hparse, Force, hint, hforce]
  simp only [Remove, Printf, World.call, checkpointPath, filepathJoin, hes, hlook] at hrm ⊢
  simp only [hrm]

/-- C2, as amended: for every version `V` below 2^63, if the checkpoint file holds the
decimal text of `V`, possibly surrounded by white space, and `Force` and the removal
succeed, `HandleDirtyState` returns nil, calls `Force` exactly once, with `V`, and leaves no
checkpoint file: a later read reports that it does not exist. -/
theorem HandleDirtyState_recovers (env : Env) (m : Migrate) (w : World) (V : Nat)
    (pre post : List Char) (mode : Nat) (hV : V < 2 ^ 63)
    (hpre : ∀ c ∈ pre, isSpace c = true) (hpost : ∀ c ∈ post, isSpace c = true)
    (hfile : w.entry (checkpointPath m) =
      some (.file ⟨pre ++ (FormatUint V).data ++ post⟩ mode))
    (hread : env.readFileErr (checkpointPath m) = none)
    (hforce : env.Force (V : Int) = none)
    (hrm : env.removeErr (checkpointPath m) = none) :
    (HandleDirtyState env m w).1 = none ∧
    (HandleDirtyState env m w).2.forced = w.forced ++ [(V : Int)] ∧
    (HandleDirtyState env m w).2.entry (checkpointPath m) = none ∧
    (ReadFile env (HandleDirtyState env m w).2 (checkpointPath m)).1 =
      .error (.notExist m.ds.destPath lastSuccessfulMigrationFile) := by
  obtain ⟨es, hes, hlook⟩ := dirs_of_entry w _ _ _ hfile
  rw [HandleDirtyState_of_checkpoint env m w V pre post mode es hV hpre hpost hes hlook hread
    hforce hrm]
  have hentry : ∀ (w' : World) (fmt : String) (args : List LogArg),
      (Printf (w'.setDir m.ds.destPath
        (es.filter (fun e => e.1 != lastSuccessfulMigrationFile))) fmt args).entry
          (checkpointPath m) = none := by
    intro w' fmt args
    simp only [Printf, checkpointPath, filepathJoin]
    exact (entry_setDir _ _ _ _).trans (lookup_filter_ne _ _)
  refine ⟨rfl, rfl, hentry _ _ _, ?_⟩
  simp only [ReadFile, hentry]
  rfl

/-- C2, witness: a checkpoint file holding `42` between white space is recovered. -/
theorem HandleDirtyState_recovers_witness :
    (HandleDirtyState (Env.calm [] 0) runner
      (World.init "dest" [("lastSuccessfulMigration", .file " 42\n" 0o644)] "src" none)).1
        = none ∧
    (HandleDirtyState (Env.calm [] 0) runner
      (World.init "dest" [("lastSuccessfulMigration", .file " 42\n" 0o644)] "src" none)).2.forced
        = [] ++ [((42 : Nat) : Int)] ∧
    (HandleDirtyState (Env.calm [] 0) runner
      (World.init "dest" [("lastSuccessfulMigration", .file " 42\n" 0o644)] "src" none)).2.entry
        (checkpointPath runner) = none ∧
    (ReadFile (Env.calm [] 0) (HandleDirtyState (Env.calm [] 0) runner
      (World.init "dest" [("lastSuccessfulMigration", .file " 42\n" 0o644)] "src" none)).2
        (checkpointPath runner)).1 = .error (.notExist "dest" "lastSuccessfulMigration") :=
  HandleDirtyState_recovers (Env.calm [] 0) runner
    (World.init "dest" [("lastSuccessfulMigration", .file " 42\n" 0o644)] "src" none)
    42 [' '] ['\n'] 0o644 (by decide) (by decide) (by decide) (by decide) (by decide)
    (by decide) (by decide)

/-- C2, as stated, fails: the checkpoint file holding `9223372036854775808`, the decimal
text of the unsigned 64-bit version 2^63, makes `HandleDirtyState` return nil after calling
`Force` with `-9223372036854775808`, which is not that version. -/
theorem HandleDirtyState_recovers_counterexample :
    (9223372036854775808 : Nat) < 2 ^ 64 ∧
    FormatUint 9223372036854775808 = "9223372036854775808" ∧
    (HandleDirtyState (Env.calm [] 0) runner
      (World.init "dest" [("lastSuccessfulMigration", .file "9223372036854775808" 0o644)]
        "src" none)).1 = none ∧
    (HandleDirtyState (Env.calm [] 0) runner
      (World.init "dest" [("lastSuccessfulMigration", .file "9223372036854775808" 0o644)]
        "src" none)).2.forced = [-9223372036854775808] ∧
    (HandleDirtyState (Env.calm [] 0) runner
      (World.init "dest" [("lastSuccessfulMigration", .file "9223372036854775808" 0o644)]
        "src" none)).2.forced ≠ [((9223372036854775808 : Nat) : Int)] := by
  decide

/-- C3, the code at the failing input: with `curVersion = -1` (no migration applied yet)
and the first migration, version 1, failing, `HandleMigrationFailure` returns nil and
persists `-1`; `HandleDirtyState`, run next on the same directory, fails to parse it, calls
`Force` not at all and leaves the checkpoint file in place. -/
theorem checkpoint_roundtrip_fails_at_nil_version :
    (HandleMigrationFailure (Env.calm (versions [1, 2]) 1) runner (-1) 2
      (World.init "dest" [] "src" none)).1 = none ∧
    (HandleMigrationFailure (Env.calm (versions [1, 2]) 1) runner (-1) 2
      (World.init "dest" [] "src" none)).2.entry (checkpointPath runner) =
        some (.file "-1" 0o644) ∧
    (HandleDirtyState (Env.calm (versions [1, 2]) 1) runner
      (HandleMigrationFailure (Env.calm (versions [1, 2]) 1) runner (-1) 2
        (World.init "dest" [] "src" none)).2).1 =
        some (Wrap (.badNumber "-1") "failed to parse last successful migration version") ∧
    (HandleDirtyState (Env.calm (versions [1, 2]) 1) runner
      (HandleMigrationFailure (Env.calm (versions [1, 2]) 1) runner (-1) 2
        (World.init "dest" [] "src" none)).2).2.forced = [] ∧
    (HandleDirtyState (Env.calm (versions [1, 2]) 1) runner
      (HandleMigrationFailure (Env.calm (versions [1, 2]) 1) runner (-1) 2
        (World.init "dest" [] "src" none)).2).2.entry (checkpointPath runner) =
        some (.file "-1" 0o644) := by
  decide

/-- C9: when the checkpoint file cannot be read (it is absent: the error is the not-exist
error of the read; it is unreadable: the error is the one of the read), `HandleDirtyState`
returns that error unchanged; when its trimmed content does not parse as an unsigned 64-bit
decimal number, it returns the parse error wrapped; in both cases `Force` is not called.
Whenever it returns an error of the read, the parse or `Force`, the directories and the
trees of the file system are as they were. -/
theorem HandleDirtyState_failure (env : Env) (m : Migrate) (w : World) :
    (w.entry (checkpointPath m) = none →
      (ReadFile env w (checkpointPath m)).1 =
        .error (.notExist m.ds.destPath lastSuccessfulMigrationFile)) ∧
    (∀ data mode e, w.entry (checkpointPath m) = some (.file data mode) →
      env.readFileErr (checkpointPath m) = some e →
      (ReadFile env w (checkpointPath m)).1 = .error e) ∧
    (∀ e, (ReadFile env w (checkpointPath m)).1 = .error e →
      (HandleDirtyState env m w).1 = some e ∧
      (HandleDirtyState env m w).2.forced = w.forced ∧
      (HandleDirtyState env m w).2.dirs = w.dirs ∧
      (HandleDirtyState env m w).2.trees = w.trees) ∧
    (∀ data e, (ReadFile env w (checkpointPath m)).1 = .ok data →
      ParseUint (TrimSpace data) = .error e →
      (HandleDirtyState env m w).1 =
        some (Wrap e "failed to parse last successful migration version") ∧
      (HandleDirtyState env m w).2.forced = w.forced ∧
      (HandleDirtyState env m w).2.dirs = w.dirs ∧
      (HandleDirtyState env m w).2.trees = w.trees) ∧
    (∀ data n e, (ReadFile env w (checkpointPath m)).1 = .ok data →
      ParseUint (TrimSpace data) = .ok n → env.Force (intOfUint n) = some e →
      (HandleDirtyState env m w).1 =
        some (Wrap e "failed to apply last successful migration") ∧
      (HandleDirtyState env m w).2.dirs = w.dirs ∧
      (HandleDirtyState env m w).2.trees = w.trees) := by
  refine ⟨?_, ?_, ?_, ?_, ?_⟩
  · intro h
    simp only [ReadFile, h]
    rfl
  · intro data mode e h he
    simp [ReadFile, h, he]
  · intro e h
    have hw := ReadFile_world env w (checkpointPath m)
    unfold HandleDirtyState
    simp only [← checkpointPath.eq_1]
    cases hr : ReadFile env w (checkpointPath m) with
    | mk r w1 =>
      rw [hr] at h hw
      simp only at h hw
      subst h hw
      exact ⟨rfl, rfl, rfl, rfl⟩
  · intro data e h hp
    have hw := ReadFile_world env w (checkpointPath m)
    unfold HandleDirtyState
    simp only [← checkpointPath.eq_1]
    cases hr : ReadFile env w (checkpointPath m) with
    | mk r w1 =>
      rw [hr] at h hw
      simp only at h hw
      subst h hw
      simp only [hp]
      refine ⟨?_, ?_, ?_, ?_⟩ <;> first | rfl | trivial
  · intro data n e h hp hf
    have hw := ReadFile_world env w (checkpointPath m)
    unfold HandleDirtyState
    simp only [← checkpointPath.eq_1]
    cases hr : ReadFile env w (checkpointPath m) with
    | mk r w1 =>
      rw [hr] at h hw
      simp only at h hw
      subst h hw
      simp only [hp, Force, hf]
      refine ⟨?_, ?_, ?_⟩ <;> first | rfl | trivial

/-- C9, witness: an absent checkpoint file, one holding `abc`, and one holding `7` with a
failing `Force`. -/
theorem HandleDirtyState_failure_witness :
    ((HandleDirtyState (Env.calm [] 0) runner (World.init "dest" [] "src" none)).1 =
        some (.notExist "dest" "lastSuccessfulMigration") ∧
      (HandleDirtyState (Env.calm [] 0) runner (World.init "dest" [] "src" none)).2.forced
        = [] ∧
      (HandleDirtyState (Env.calm [] 0) runner (World.init "dest" [] "src" none)).2.dirs
        = (World.init "dest" [] "src" none).dirs ∧
      (HandleDirtyState (Env.calm [] 0) runner (World.init "dest" [] "src" none)).2.trees
        = (World.init "dest" [] "src" none).trees) ∧
    ((HandleDirtyState (Env.calm [] 0) runner
        (World.init "dest" [("lastSuccessfulMigration", .file "abc" 0o644)] "src" none)).1 =
        some (Wrap (.badNumber "abc") "failed to parse last successful migration version") ∧
      (HandleDirtyState (Env.calm [] 0) runner
        (World.init "dest" [("lastSuccessfulMigration", .file "abc" 0o644)] "src" none)).2.forced
        = [] ∧
      (HandleDirtyState (Env.calm [] 0) runner
        (World.init "dest" [("lastSuccessfulMigration", .file "abc" 0o644)] "src" none)).2.dirs
        = (World.init "dest" [("lastSuccessfulMigration", .file "abc" 0o644)] "src" none).dirs ∧
      (HandleDirtyState (Env.calm [] 0) runner
        (World.init "dest" [("lastSuccessfulMigration", .file "abc" 0o644)] "src" none)).2.trees
        = (World.init "dest" [("lastSuccessfulMigration", .file "abc" 0o644)] "src" none).trees) ∧
    ((HandleDirtyState { Env.calm [] 0 with Force := fun _ => some (.engine "locked") } runner
        (World.init "dest" [("lastSuccessfulMigration", .file "7" 0o644)] "src" none)).1 =
        some (Wrap (.engine "locked") "failed to apply last successful migration") ∧
      (HandleDirtyState { Env.calm [] 0 with Force := fun _ => some (.engine "locked") } runner
        (World.init "dest" [("lastSuccessfulMigration", .file "7" 0o644)] "src" none)).2.dirs
        = (World.init "dest" [("lastSuccessfulMigration", .file "7" 0o644)] "src" none).dirs ∧
      (HandleDirtyState { Env.calm [] 0 with Force := fun _ => some (.engine "locked") } runner
        (World.init "dest" [("lastSuccessfulMigration", .file "7" 0o644)] "src" none)).2.trees
        = (World.init "dest" [("lastSuccessfulMigration", .file "7" 0o644)] "src" none).trees) :=
  ⟨(HandleDirtyState_failure (Env.calm [] 0) runner (World.init "dest" [] "src" none)).2.2.1
      (.notExist "dest" "lastSuccessfulMigration") (by decide),
    (HandleDirtyState_failure (Env.calm [] 0) runner
      (World.init "dest" [("lastSuccessfulMigration", .file "abc" 0o644)] "src" none)).2.2.2.1
      "abc" (.badNumber "abc") (by decide) (by decide),
    (HandleDirtyState_failure { Env.calm [] 0 with Force := fun _ => some (.engine "locked") }
      runner
      (World.init "dest" [("lastSuccessfulMigration", .file "7" 0o644)] "src" none)).2.2.2.2
      "7" 7 (.engine "locked") (by decide) (by decide) (by decide)⟩

/-! ## No destination directory -/

/-- Without a destination directory `CleanupFiles` returns nil and leaves the world, the
record of file-system calls included, as it was. -/
theorem CleanupFiles_no_destination (env : Env) (m : Migrate) (v : Nat) (w : World)
    (h : m.ds.destPath = "") : CleanupFiles env m v w = (none, w) := by
  simp [CleanupFiles, h]

/-- C10, the code at the failing input: with no destination directory configured (and the
stream `[2,3,4,5,6]`, failed version 5, `curVersion` 2), `HandleMigrationFailure` returns nil
but writes: one `os.WriteFile` call is made, on the relative path `lastSuccessfulMigration`,
and the working directory, empty before, holds that file with content `4`. -/
theorem HandleMigrationFailure_no_destination_writes :
    runnerNoDest.ds.destPath = "" ∧
    (HandleMigrationFailure (Env.calm (versions [2, 3, 4, 5, 6]) 5) runnerNoDest 2 7
      (World.init "" [] "src" none)).1 = none ∧
    (HandleMigrationFailure (Env.calm (versions [2, 3, 4, 5, 6]) 5) runnerNoDest 2 7
      (World.init "" [] "src" none)).2.calls =
        [.WriteFile { dir := "", base := "lastSuccessfulMigration" }] ∧
    (World.init "" [] "src" none).dirs "" = some [] ∧
    (HandleMigrationFailure (Env.calm (versions [2, 3, 4, 5, 6]) 5) runnerNoDest 2 7
      (World.init "" [] "src" none)).2.dirs "" =
        some [("lastSuccessfulMigration", .file "4" 0o644)] := by
  decide

/-! ## Writing a checkpoint, then recovering from it -/

theorem Itoa_natCast (k : Nat) : Itoa (k : Int) = FormatUint k := by
  simp [Itoa]

theorem specCheckpoint_nonneg (curVersion failedVersion : Int) (stream : List Elem)
    (hcur : 0 ≤ curVersion ∧ curVersion < 2 ^ 63)
    (hsmall : ∀ d ∈ descriptors stream, d.Version < 2 ^ 63) :
    ∃ k : Nat, k < 2 ^ 63 ∧ specCheckpoint curVersion failedVersion stream = FormatUint k := by
  obtain ⟨n, rfl⟩ : ∃ n : Nat, curVersion = (n : Int) := ⟨curVersion.toNat, by omega⟩
  unfold specCheckpoint
  cases hl : ((descriptors stream).takeWhile
      (fun d => decide ((d.Version : Int) ≠ failedVersion))).getLast? with
  | none => exact ⟨n, by omega, Itoa_natCast n⟩
  | some d =>
    have hmem : d ∈ descriptors stream :=
      List.takeWhile_subset _ (List.mem_of_getLast?_eq_some hl)
    exact ⟨d.Version, hsmall d hmem, Itoa_natCast _⟩

/-- The round trip of the checkpoint where it holds: when `curVersion` is not negative and
the stream is one the reader sends, the text a successful `HandleMigrationFailure`
persists is the decimal text of a number `k` below 2^63, and `HandleDirtyState`, run next on
the same directory with the read, `Force` and the removal succeeding, returns nil having
called `Force` once more, with `k`. -/
theorem checkpoint_roundtrip_of_nonneg (env : Env) (m : Migrate) (curVersion : Int) (v : Nat)
    (w : World) (failedVersion : Int) (dirty : Bool)
    (hver : env.Version = .ok (failedVersion, dirty))
    (hint : -2 ^ 63 ≤ failedVersion ∧ failedVersion < 2 ^ 63)
    (hstream : ReadsRange curVersion (intOfUint v) (env.read curVersion (intOfUint v)))
    (hcur : 0 ≤ curVersion ∧ curVersion < 2 ^ 63)
    (hnil : (HandleMigrationFailure env m curVersion v w).1 = none)
    (hread : env.readFileErr (checkpointPath m) = none)
    (hforce : ∀ i, env.Force i = none)
    (hrm : env.removeErr (checkpointPath m) = none) :
    ∃ k : Nat, k < 2 ^ 63 ∧
      specCheckpoint curVersion failedVersion (env.read curVersion (intOfUint v))
        = FormatUint k ∧
      (HandleDirtyState env m (HandleMigrationFailure env m curVersion v w).2).1 = none ∧
      (HandleDirtyState env m (HandleMigrationFailure env m curVersion v w).2).2.forced =
        (HandleMigrationFailure env m curVersion v w).2.forced ++ [(k : Int)] := by
  have hsmall := ReadsRange_small curVersion v _ hstream
  obtain ⟨k, hk, hspec⟩ := specCheckpoint_nonneg curVersion failedVersion _ hcur hsmall
  have htext : lastSuccessfulLoop failedVersion (env.read curVersion (intOfUint v))
      (Itoa curVersion) = FormatUint k := by
    rw [lastSuccessfulLoop_eq failedVersion hint _ _ hsmall]
    exact hspec
  rw [HandleMigrationFailure_eq env m curVersion v w failedVersion dirty hver, htext] at hnil ⊢
  obtain ⟨mode, hmode⟩ := WriteFile_entry _ _ _ _ _ hnil
  obtain ⟨es, hes, hlook⟩ := dirs_of_entry _ _ _ _ hmode
  have hlook' : es.lookup lastSuccessfulMigrationFile =
      some (.file ⟨[] ++ (FormatUint k).data ++ []⟩ mode) := by
    simpa using hlook
  rw [HandleDirtyState_of_checkpoint env m _ k [] [] mode es hk (by simp) (by simp) hes hlook'
    hread (hforce _) hrm]
  exact ⟨k, hk, hspec, rfl, rfl⟩

/-! ## Pruning -/

theorem indexFrom_underscore (l : List Char) (i : Nat) :
    indexFrom ['_'] l i =
      if '_' ∈ l then ((i + (l.takeWhile (fun c => c != '_')).length : Nat) : Int) else -1 := by
  induction l generalizing i with
  | nil => simp [indexFrom]
  | cons c cs ih =>
    by_cases hc : c = '_'
    · subst hc
      simp [indexFrom, List.isPrefixOf, List.takeWhile_cons]
    · have h1 : ('_' == c) = false := by simpa using fun e => hc e.symm
      have h2 : ¬ '_' = c := fun e => hc e.symm
      simp only [indexFrom, List.isPrefixOf, h1, Bool.false_and, Bool.false_eq_true, if_false,
        ih, List.mem_cons, h2, false_or, List.takeWhile_cons, bne_iff_ne, ne_eq, hc,
        not_false_eq_true, decide_True, if_true, List.length_cons]
      split
      · congr 1
        omega
      · rfl

theorem take_length_takeWhile (p : Char → Bool) (l : List Char) :
    l.take (l.takeWhile p).length = l.takeWhile p := by
  induction l with
  | nil => rfl
  | cons c cs ih =>
    by_cases h : p c = true
    · simp [List.takeWhile_cons, h, ih]
    · simp [List.takeWhile_cons, h]

theorem takeWhile_append_underscore (digits rest : List Char) (h : '_' ∉ digits) :
    (digits ++ '_' :: rest).takeWhile (fun c => c != '_') = digits := by
  induction digits with
  | nil => simp [List.takeWhile_cons]
  | cons c cs ih =>
    have hc : c ≠ '_' := fun e => h (by simp [e])
    have hcs : '_' ∉ cs := fun e => h (List.mem_cons_of_mem _ e)
    simp [List.takeWhile_cons, hc, ih hcs]

/-- What `Index` and the slice compute for a name with an underscore. -/
theorem sliceTo_Index (name : String) (h : '_' ∈ name.data) :
    Index name "_" ≠ -1 ∧
      sliceTo name (Index name "_") = ⟨name.data.takeWhile (fun c => c != '_')⟩ := by
  have hidx : Index name "_" =
      (((name.data.takeWhile (fun c => c != '_')).length : Nat) : Int) := by
    have := indexFrom_underscore name.data 0
    simp only [h, if_true, Nat.zero_add] at this
    exact this
  constructor
  · rw [hidx]
    omega
  · rw [sliceTo, hidx, Int.toNat_ofNat, take_length_takeWhile]

theorem Index_eq_neg_one (name : String) (h : '_' ∉ name.data) : Index name "_" = -1 := by
  have := indexFrom_underscore name.data 0
  simp only [h, if_false] at this
  exact this

/-- Every name the loop of `CleanupFiles` removes is one the specification lets it delete. -/
theorem PruneEligible_of_prunes (env : Env) (m : Migrate) (v : Nat) (name : String)
    (h : prunes env m v name = true) : PruneEligible v name := by
  simp only [prunes, Bool.and_eq_true, Bool.or_eq_true, bne_iff_ne, ne_eq] at h
  obtain ⟨⟨⟨hsuf, hidx⟩, hparse⟩, _⟩ := h
  have hmem : '_' ∈ name.data := by
    by_contra hno
    exact hidx (Index_eq_neg_one name hno)
  have hslice := (sliceTo_Index name hmem).2
  rw [hslice] at hparse
  refine ⟨?_, hmem, ?_⟩
  · rcases hsuf with hs | hs
    · exact Or.inr (List.isSuffixOf_iff_suffix.1 hs)
    · exact Or.inl (List.isSuffixOf_iff_suffix.1 hs)
  · cases hp : ParseUint ⟨name.data.takeWhile (fun c => c != '_')⟩ with
    | error e => simp [hp] at hparse
    | ok n =>
      rw [hp] at hparse
      exact ⟨n, rfl, by simpa using hparse⟩

theorem isDecimalDigit_ne_underscore (c : Char) (h : isDecimalDigit c = true) : c ≠ '_' := by
  rintro rfl
  exact absurd h (by decide)

/-- The loop of `CleanupFiles` removes every migration file whose encoded version fits in
64 bits and exceeds the target, when its removal does not fail. -/
theorem prunes_of_IsMigrationFile (env : Env) (m : Migrate) (v : Nat) (name : String)
    (digits : List Char) (hmig : IsMigrationFile name digits)
    (hfit : decimalValue digits < 2 ^ 64) (hgt : v < decimalValue digits)
    (hrm : env.removeErr (filepathJoin m.ds.destPath name) = none) :
    prunes env m v name = true := by
  obtain ⟨hne, hdig, ⟨rest, hname⟩, hsuf⟩ := hmig
  have hno : '_' ∉ digits := fun hmem => isDecimalDigit_ne_underscore _ (hdig _ hmem) rfl
  have hmem : '_' ∈ name.data := by rw [hname]; simp
  obtain ⟨hidx, hslice⟩ := sliceTo_Index name hmem
  rw [hname, takeWhile_append_underscore digits rest hno] at hslice
  have hparse : ParseUint ⟨digits⟩ = .ok (decimalValue digits) := by
    rw [ParseUint, if_neg hne]
    exact parseDigits_eq_ok _ digits 0 hdig hfit
  have hs : (HasSuffix name "down.sql" || HasSuffix name "up.sql") = true := by
    rcases hsuf with h | h
    · simp [HasSuffix, List.isSuffixOf_iff_suffix.2 h]
    · simp [HasSuffix, List.isSuffixOf_iff_suffix.2 h]
  simp only [prunes, hs, Bool.true_and, Bool.and_eq_true, bne_iff_ne, ne_eq]
  refine ⟨⟨hidx, ?_⟩, by simp [hrm]⟩
  rw [hslice, hparse]
  simpa using hgt

theorem filter_ne_of_lookup_none (name : String) (es : List (String × Node))
    (h : es.lookup name = none) : es.filter (fun e => !(e.1 == name)) = es := by
  rw [List.filter_eq_self]
  rintro ⟨a, b⟩ hmem
  rw [List.lookup_eq_none_iff] at h
  have := h (a, b) hmem
  simp only [bne_iff_ne, ne_eq] at this
  simpa using fun e => this e.symm

/-- The directories after `os.Remove`. -/
theorem Remove_dirs (env : Env) (w : World) (p : Path) :
    (Remove env w p).2.dirs = fun d =>
      if d = p.dir then (w.dirs p.dir).map (fun es =>
        es.filter (fun e => !((env.removeErr p).isNone && e.1 == p.base)))
      else w.dirs d := by
  funext d
  unfold Remove
  simp only
  cases hd : w.dirs p.dir with
  | none =>
    simp only [World.call, Option.map_none']
    split
    · rename_i h; rw [h, hd]
    · rfl
  | some es =>
    simp only [Option.map_some']
    cases hl : es.lookup p.base with
    | none =>
      simp only [World.call]
      split
      · rename_i h
        rw [h, hd]
        congr 1
        symm
        rw [List.filter_eq_self]
        intro e he
        have := List.filter_eq_self.1 (filter_ne_of_lookup_none _ _ hl) e he
        simp only [Bool.not_eq_true', beq_eq_false_iff_ne, ne_eq] at this
        simp [this]
      · rfl
    | some n =>
      cases hr : env.removeErr p with
      | some e =>
        simp only [World.call, Option.isNone_some, Bool.false_and, Bool.not_false,
          List.filter_true]
        split
        · rename_i h; rw [h, hd]
        · rfl
      | none =>
        simp only [World.setDir, World.call, Option.isNone_none, Bool.true_and]
        split
        · congr 1
        · rfl

theorem Remove_rest (env : Env) (w : World) (p : Path) :
    (Remove env w p).2.trees = w.trees ∧ (Remove env w p).2.forced = w.forced := by
  unfold Remove
  simp only
  split
  · exact ⟨rfl, rfl⟩
  · split
    · exact ⟨rfl, rfl⟩
    · split <;> exact ⟨rfl, rfl⟩

/-- The directories after one round of the loop of `CleanupFiles`: the entries called like
the visited one are gone from the destination directory when `prunes` holds, and nothing
else changes. -/
theorem cleanupEntry_dirs (env : Env) (m : Migrate) (v : Nat) (w : World)
    (f : String × Node) :
    (cleanupEntry env m v w f).dirs = fun d =>
      if d = m.ds.destPath then (w.dirs m.ds.destPath).map (fun es =>
        es.filter (fun e => !(prunes env m v f.1 && e.1 == f.1)))
      else w.dirs d := by
  have hid : ∀ (b : String → Bool), (∀ s, b s = false) →
      w.dirs = fun d => if d = m.ds.destPath then (w.dirs m.ds.destPath).map (fun es =>
        es.filter (fun e => !(b e.1))) else w.dirs d := by
    intro b hb
    funext d
    split
    · rename_i h
      subst h
      cases w.dirs m.ds.destPath with
      | none => rfl
      | some es => simp [hb]
    · rfl
  unfold cleanupEntry
  simp only
  split
  · rename_i hsuf
    have hp : prunes env m v f.1 = false := by
      simp only [Bool.and_eq_true, Bool.not_eq_true', ← Bool.or_eq_false_iff] at hsuf
      simp [prunes, hsuf]
    simpa [hp] using hid (fun _ => false) (fun _ => rfl)
  · split
    · rename_i hidx
      have hp : prunes env m v f.1 = false := by simp [prunes, hidx]
      simpa [hp] using hid (fun _ => false) (fun _ => rfl)
    · rename_i hsuf hidx
      have hsuf' : (HasSuffix f.1 "down.sql" || HasSuffix f.1 "up.sql") = true := by
        cases h1 : HasSuffix f.1 "down.sql" <;> cases h2 : HasSuffix f.1 "up.sql" <;>
          simp_all
      cases hparse : ParseUint (sliceTo f.1 (Index f.1 "_")) with
      | error e =>
        have hp : prunes env m v f.1 = false := by simp [prunes, hparse]
        simpa [hp, Printf] using hid (fun _ => false) (fun _ => rfl)
      | ok fileVersion =>
        simp only
        split
        · rename_i hgt
          have hp : prunes env m v f.1 =
              (env.removeErr (filepathJoin m.ds.destPath f.1)).isNone := by
            simp [prunes, hsuf', hidx, hparse, hgt]
          have hrm := Remove_dirs env w (filepathJoin m.ds.destPath f.1)
          rw [hp]
          cases hr : Remove env w (filepathJoin m.ds.destPath f.1) with
          | mk r w1 =>
            rw [hr] at hrm
            simp only at hrm
            cases r with
            | none => simpa [Printf, filepathJoin] using hrm
            | some e => simpa [Printf, filepathJoin] using hrm
        · rename_i hgt
          have hp : prunes env m v f.1 = false := by
            simp [prunes, hparse, hgt]
          simpa [hp] using hid (fun _ => false) (fun _ => rfl)

theorem cleanupEntry_rest (env : Env) (m : Migrate) (v : Nat) (w : World)
    (f : String × Node) :
    (cleanupEntry env m v w f).trees = w.trees ∧
      (cleanupEntry env m v w f).forced = w.forced := by
  unfold cleanupEntry
  simp only
  split
  · exact ⟨rfl, rfl⟩
  · split
    · exact ⟨rfl, rfl⟩
    · split
      · exact ⟨rfl, rfl⟩
      · split
        · have h := Remove_rest env w (filepathJoin m.ds.destPath f.1)
          split
          · rename_i heq
            rw [heq] at h
            exact h
          · rename_i heq
            rw [heq] at h
            exact h
        · exact ⟨rfl, rfl⟩

/-- The directories after the whole loop of `CleanupFiles` over the listing `fs`. -/
theorem cleanupLoop_dirs (env : Env) (m : Migrate) (v : Nat) (fs : List (String × Node))
    (w : World) :
    (fs.foldl (cleanupEntry env m v) w).dirs = fun d =>
      if d = m.ds.destPath then (w.dirs m.ds.destPath).map (fun es =>
        es.filter (fun e => !(fs.any (fun f => prunes env m v f.1 && e.1 == f.1))))
      else w.dirs d := by
  induction fs generalizing w with
  | nil =>
    simp only [List.foldl_nil]
    funext d
    split
    · rename_i h
      subst h
      cases w.dirs m.ds.destPath <;> simp
    · rfl
  | cons f fs ih =>
    rw [List.foldl_cons, ih, cleanupEntry_dirs]
    funext d
    split
    · simp only [if_true]
      cases w.dirs m.ds.destPath with
      | none => rfl
      | some es =>
        simp only [Option.map_some', List.filter_filter, List.any_cons, Bool.not_or]
        congr 1
        apply List.filter_congr
        intro e _
        exact Bool.and_comm _ _
    · rename_i h
      simp only [h, if_false]

theorem cleanupLoop_rest (env : Env) (m : Migrate) (v : Nat) (fs : List (String × Node))
    (w : World) :
    (fs.foldl (cleanupEntry env m v) w).trees = w.trees ∧
      (fs.foldl (cleanupEntry env m v) w).forced = w.forced := by
  induction fs generalizing w with
  | nil => exact ⟨rfl, rfl⟩
  | cons f fs ih =>
    rw [List.foldl_cons]
    obtain ⟨h1, h2⟩ := ih (cleanupEntry env m v w f)
    obtain ⟨h3, h4⟩ := cleanupEntry_rest env m v w f
    exact ⟨h1.trans h3, h2.trans h4⟩

theorem ReadDir_ok (env : Env) (w : World) (dir : String) (files : List (String × Node))
    (h : (ReadDir env w dir).1 = .ok files) :
    dir ≠ "" ∧ w.dirs dir = some files ∧
      ReadDir env w dir = (.ok files, w.call (.ReadDir dir)) := by
  unfold ReadDir at h ⊢
  by_cases hne : dir = ""
  · simp [hne] at h
  · cases hd : w.dirs dir with
    | none => simp [hne, hd] at h
    | some es =>
      cases hr : env.readDirErr dir with
      | some e => simp [hne, hd, hr] at h
      | none =>
        simp only [hne, hd, hr, if_false, Except.ok.injEq] at h
        subst h
        simp [hne, hd, hr]

/-- What `CleanupFiles` does once the listing has succeeded: it returns nil and keeps of the
destination directory exactly the entries that `prunes` does not hold of. -/
theorem CleanupFiles_eq (env : Env) (m : Migrate) (v : Nat) (w : World)
    (files : List (String × Node)) (hlist : (ReadDir env w m.ds.destPath).1 = .ok files) :
    (CleanupFiles env m v w).1 = none ∧
    (CleanupFiles env m v w).2.dirs m.ds.destPath =
      some (files.filter (fun e => !(prunes env m v e.1))) ∧
    (∀ d, d ≠ m.ds.destPath → (CleanupFiles env m v w).2.dirs d = w.dirs d) ∧
    (CleanupFiles env m v w).2.trees = w.trees ∧
    (CleanupFiles env m v w).2.forced = w.forced := by
  obtain ⟨hne, hdir, hread⟩ := ReadDir_ok env w _ files hlist
  have hres : CleanupFiles env m v w =
      (none, files.foldl (cleanupEntry env m v) (w.call (.ReadDir m.ds.destPath))) := by
    unfold CleanupFiles
    rw [if_neg hne, hread]
  rw [hres]
  have hrest := cleanupLoop_rest env m v files (w.call (.ReadDir m.ds.destPath))
  refine ⟨rfl, ?_, ?_, hrest.1, hrest.2⟩
  · simp only [cleanupLoop_dirs, if_true, World.call, hdir, Option.map_some']
    congr 1
    apply List.filter_congr
    intro e he
    congr 1
    cases hp : prunes env m v e.1 with
    | true =>
      rw [List.any_eq_true]
      exact ⟨e, he, by simp [hp]⟩
    | false =>
      rw [List.any_eq_false]
      intro f hf
      by_cases hfe : e.1 = f.1
      · simp [← hfe, hp]
      · simp [hfe]
  · intro d hd
    simp only [cleanupLoop_dirs, hd, if_false, World.call]

/-- C4, as amended: after `CleanupFiles(targetVersion)` has returned with the listing and
every deletion it attempts succeeding, the destination directory holds no migration file
(decimal digits, an underscore, and the ending `up.sql` or `down.sql`) whose encoded version
fits in 64 bits unsigned and is strictly greater than the target version. -/
theorem CleanupFiles_prunes_above (env : Env) (m : Migrate) (v : Nat) (w : World)
    (files : List (String × Node)) (hlist : (ReadDir env w m.ds.destPath).1 = .ok files)
    (hrm : ∀ name, env.removeErr (filepathJoin m.ds.destPath name) = none) :
    (CleanupFiles env m v w).1 = none ∧
    ∃ kept, (CleanupFiles env m v w).2.dirs m.ds.destPath = some kept ∧
      ∀ e ∈ kept, ∀ digits, IsMigrationFile e.1 digits → decimalValue digits < 2 ^ 64 →
        decimalValue digits ≤ v := by
  obtain ⟨hnil, hdirs, _⟩ := CleanupFiles_eq env m v w files hlist
  refine ⟨hnil, _, hdirs, ?_⟩
  intro e he digits hmig hfit
  by_contra hgt
  have hp := prunes_of_IsMigrationFile env m v e.1 digits hmig hfit (by omega) (hrm e.1)
  have := (List.mem_filter.1 he).2
  simp [hp] at this

/-- C4, witness: in the directory `1_a.up.sql`, `2_b.up.sql`, `3_c.down.sql` pruned to the
target 2, the two files that stay encode versions not above 2. -/
theorem CleanupFiles_prunes_above_witness :
    (CleanupFiles (Env.calm [] 0) runner 2
      (World.init "dest" [("1_a.up.sql", .file "" 0o644), ("2_b.up.sql", .file "" 0o644),
        ("3_c.down.sql", .file "" 0o644)] "src" none)).1 = none ∧
    ∃ kept, (CleanupFiles (Env.calm [] 0) runner 2
      (World.init "dest" [("1_a.up.sql", .file "" 0o644), ("2_b.up.sql", .file "" 0o644),
        ("3_c.down.sql", .file "" 0o644)] "src" none)).2.dirs runner.ds.destPath = some kept ∧
      ∀ e ∈ kept, ∀ digits, IsMigrationFile e.1 digits → decimalValue digits < 2 ^ 64 →
        decimalValue digits ≤ 2 :=
  CleanupFiles_prunes_above (Env.calm [] 0) runner 2
    (World.init "dest" [("1_a.up.sql", .file "" 0o644), ("2_b.up.sql", .file "" 0o644),
      ("3_c.down.sql", .file "" 0o644)] "src" none)
    [("1_a.up.sql", .file "" 0o644), ("2_b.up.sql", .file "" 0o644),
      ("3_c.down.sql", .file "" 0o644)] (by decide) (fun _ => rfl)

/-- C4, as stated, fails: `18446744073709551616_x.up.sql` is a migration file whose encoded
version 2^64 is above the target 2, and after `CleanupFiles(2)` has returned nil, no
deletion having failed, it is still in the destination directory. -/
theorem CleanupFiles_prunes_above_counterexample :
    IsMigrationFile "18446744073709551616_x.up.sql" "18446744073709551616".data ∧
    2 < decimalValue "18446744073709551616".data ∧
    (CleanupFiles (Env.calm [] 0) runner 2
      (World.init "dest" [("18446744073709551616_x.up.sql", .file "" 0o644)] "src" none)).1
        = none ∧
    (CleanupFiles (Env.calm [] 0) runner 2
      (World.init "dest" [("18446744073709551616_x.up.sql", .file "" 0o644)] "src" none)).2.dirs
        "dest" = some [("18446744073709551616_x.up.sql", .file "" 0o644)] ∧
    (CleanupFiles (Env.calm [] 0) runner 2
      (World.init "dest" [("18446744073709551616_x.up.sql", .file "" 0o644)] "src" none)).2.calls
        = [.ReadDir "dest"] :=
  ⟨⟨by decide, by decide, ⟨"x.up.sql".data, rfl⟩, Or.inl (by decide)⟩, by decide, by decide,
    by decide, by decide⟩

/-- C5: once the listing has succeeded, `CleanupFiles(targetVersion)` returns nil; what it
leaves of the destination directory is a sublist of what was there (nothing is created or
modified), and an entry is missing from it only if its name ends in `up.sql` or `down.sql`,
contains an underscore, and the text before the first underscore parses as an unsigned
integer strictly greater than the target; every other directory and the source trees are
as they were. -/
theorem CleanupFiles_frame (env : Env) (m : Migrate) (v : Nat) (w : World)
    (files : List (String × Node)) (hlist : (ReadDir env w m.ds.destPath).1 = .ok files) :
    (CleanupFiles env m v w).1 = none ∧
    (∃ kept, (CleanupFiles env m v w).2.dirs m.ds.destPath = some kept ∧
      kept.Sublist files ∧
      (∀ e ∈ files, e ∉ kept → PruneEligible v e.1) ∧
      (∀ e ∈ files, ¬ PruneEligible v e.1 → e ∈ kept)) ∧
    (∀ d, d ≠ m.ds.destPath → (CleanupFiles env m v w).2.dirs d = w.dirs d) ∧
    (CleanupFiles env m v w).2.trees = w.trees := by
  obtain ⟨hnil, hdirs, hother, htrees, _⟩ := CleanupFiles_eq env m v w files hlist
  have hmiss : ∀ e ∈ files, e ∉ files.filter (fun e => !(prunes env m v e.1)) →
      PruneEligible v e.1 := by
    intro e he hnot
    apply PruneEligible_of_prunes env m
    by_contra hp
    exact hnot (List.mem_filter.2 ⟨he, by simpa using hp⟩)
  refine ⟨hnil, ⟨_, hdirs, List.filter_sublist _, hmiss, ?_⟩, hother, htrees⟩
  intro e he hne
  by_contra hnot
  exact hne (hmiss e he hnot)

/-- C5, witness: of `1_a.up.sql`, `2_b.up.sql`, `3_c.down.sql`, `README.md` and
`nodigits_up.sql`, pruning to the target 2 leaves all but `3_c.down.sql`. -/
theorem CleanupFiles_frame_witness :
    ((CleanupFiles (Env.calm [] 0) runner 2
      (World.init "dest" [("1_a.up.sql", .file "a" 0o644), ("2_b.up.sql", .file "b" 0o644),
        ("3_c.down.sql", .file "c" 0o644), ("README.md", .file "r" 0o644),
        ("nodigits_up.sql", .file "n" 0o644)] "src" none)).1 = none ∧
    (∃ kept, (CleanupFiles (Env.calm [] 0) runner 2
      (World.init "dest" [("1_a.up.sql", .file "a" 0o644), ("2_b.up.sql", .file "b" 0o644),
        ("3_c.down.sql", .file "c" 0o644), ("README.md", .file "r" 0o644),
        ("nodigits_up.sql", .file "n" 0o644)] "src" none)).2.dirs runner.ds.destPath
          = some kept ∧
      kept.Sublist [("1_a.up.sql", .file "a" 0o644), ("2_b.up.sql", .file "b" 0o644),
        ("3_c.down.sql", .file "c" 0o644), ("README.md", .file "r" 0o644),
        ("nodigits_up.sql", .file "n" 0o644)] ∧
      (∀ e ∈ [("1_a.up.sql", Node.file "a" 0o644), ("2_b.up.sql", .file "b" 0o644),
        ("3_c.down.sql", .file "c" 0o644), ("README.md", .file "r" 0o644),
        ("nodigits_up.sql", .file "n" 0o644)], e ∉ kept → PruneEligible 2 e.1) ∧
      (∀ e ∈ [("1_a.up.sql", Node.file "a" 0o644), ("2_b.up.sql", .file "b" 0o644),
        ("3_c.down.sql", .file "c" 0o644), ("README.md", .file "r" 0o644),
        ("nodigits_up.sql", .file "n" 0o644)], ¬ PruneEligible 2 e.1 → e ∈ kept)) ∧
    (∀ d, d ≠ runner.ds.destPath → (CleanupFiles (Env.calm [] 0) runner 2
      (World.init "dest" [("1_a.up.sql", .file "a" 0o644), ("2_b.up.sql", .file "b" 0o644),
        ("3_c.down.sql", .file "c" 0o644), ("README.md", .file "r" 0o644),
        ("nodigits_up.sql", .file "n" 0o644)] "src" none)).2.dirs d =
      (World.init "dest" [("1_a.up.sql", .file "a" 0o644), ("2_b.up.sql", .file "b" 0o644),
        ("3_c.down.sql", .file "c" 0o644), ("README.md", .file "r" 0o644),
        ("nodigits_up.sql", .file "n" 0o644)] "src" none).dirs d) ∧
    (CleanupFiles (Env.calm [] 0) runner 2
      (World.init "dest" [("1_a.up.sql", .file "a" 0o644), ("2_b.up.sql", .file "b" 0o644),
        ("3_c.down.sql", .file "c" 0o644), ("README.md", .file "r" 0o644),
        ("nodigits_up.sql", .file "n" 0o644)] "src" none)).2.trees =
      (World.init "dest" [("1_a.up.sql", .file "a" 0o644), ("2_b.up.sql", .file "b" 0o644),
        ("3_c.down.sql", .file "c" 0o644), ("README.md", .file "r" 0o644),
        ("nodigits_up.sql", .file "n" 0o644)] "src" none).trees) ∧
    (CleanupFiles (Env.calm [] 0) runner 2
      (World.init "dest" [("1_a.up.sql", .file "a" 0o644), ("2_b.up.sql", .file "b" 0o644),
        ("3_c.down.sql", .file "c" 0o644), ("README.md", .file "r" 0o644),
        ("nodigits_up.sql", .file "n" 0o644)] "src" none)).2.dirs "dest" =
      some [("1_a.up.sql", .file "a" 0o644), ("2_b.up.sql", .file "b" 0o644),
        ("README.md", .file "r" 0o644), ("nodigits_up.sql", .file "n" 0o644)] :=
  ⟨CleanupFiles_frame (Env.calm [] 0) runner 2
    (World.init "dest" [("1_a.up.sql", .file "a" 0o644), ("2_b.up.sql", .file "b" 0o644),
      ("3_c.down.sql", .file "c" 0o644), ("README.md", .file "r" 0o644),
      ("nodigits_up.sql", .file "n" 0o644)] "src" none)
    [("1_a.up.sql", .file "a" 0o644), ("2_b.up.sql", .file "b" 0o644),
      ("3_c.down.sql", .file "c" 0o644), ("README.md", .file "r" 0o644),
      ("nodigits_up.sql", .file "n" 0o644)] (by decide), by decide⟩

/-! ## Mirroring -/

/-- For every file the walk offers for copying, when the open, the create and the byte copy
succeed, the walk function of `CopyFiles` returns nil having made the four calls open,
create, copy and close, and no `os.Chmod` call. -/
theorem copyWalkFn_copied_without_chmod (env : Env) (m : Migrate) (src : String)
    (info : FileInfo) (w : World) (hfile : info.IsDir = false)
    (hname : info.Name ≠ "current.sql") (hopen : env.openErr src = none)
    (hcreate : (Create env (w.call (.Open src)) (filepathJoin m.ds.destPath info.Name)).1 = none)
    (hcopy : env.copyErr src = none) :
    (copyWalkFn env m src (some info) none w).1 = none ∧
    (copyWalkFn env m src (some info) none w).2.calls =
      w.calls ++ [.Open src, .Create (filepathJoin m.ds.destPath info.Name),
        .Copy src (filepathJoin m.ds.destPath info.Name), .Close src] := by
  have hcalls : (Create env (w.call (.Open src)) (filepathJoin m.ds.destPath info.Name)).2.calls
      = w.calls ++ [.Open src] ++ [.Create (filepathJoin m.ds.destPath info.Name)] := by
    unfold Create
    simp only
    split
    · rfl
    · split
      · rfl
      · split <;> rfl
  have hset : ∀ (w' : World) (p : Path) (data : String), (w'.setData p data).calls = w'.calls := by
    intro w' p data
    unfold World.setData
    split <;> rfl
  have hclose : ∀ (w' : World), (closeSrc env w' src).calls = w'.calls ++ [.Close src] := by
    intro w'
    unfold closeSrc
    simp only
    split <;> rfl
  unfold copyWalkFn
  simp only [hfile, hname, Bool.false_eq_true, if_false, Open, hopen]
  cases hc : Create env (w.call (.Open src)) (filepathJoin m.ds.destPath info.Name) with
  | mk r w2 =>
    rw [hc] at hcreate hcalls
    simp only at hcreate hcalls
    subst hcreate
    simp only [Copy, hcopy, hclose, hset, World.call, hcalls, List.append_assoc,
      List.cons_append, List.nil_append, and_self]

theorem Create_entry (env : Env) (w : World) (p : Path) (h : (Create env w p).1 = none) :
    ∃ mode, (Create env w p).2.entry p = some (.file "" mode) := by
  obtain ⟨dir, base⟩ := p
  unfold Create at h ⊢
  simp only at h ⊢
  split at h
  · cases h
  · split at h
    · cases h
    · split at h
      · cases h
      · exact ⟨_, by rw [entry_setDir, lookup_putEntry]⟩
      · exact ⟨_, by rw [entry_setDir, lookup_putEntry]⟩

theorem setData_entry (w : World) (p : Path) (old data : String) (mode : Nat)
    (h : w.entry p = some (.file old mode)) :
    (w.setData p data).entry p = some (.file data mode) := by
  obtain ⟨dir, base⟩ := p
  obtain ⟨es, hes, _⟩ := dirs_of_entry w dir base _ h
  unfold World.setData
  simp only [hes, h]
  rw [entry_setDir, lookup_putEntry]

theorem Chmod_of_entry (env : Env) (w : World) (p : Path) (data : String) (old mode : Nat)
    (h : w.entry p = some (.file data old)) : (Chmod env w p mode).1 = env.chmodErr p := by
  obtain ⟨dir, base⟩ := p
  obtain ⟨es, hes, _⟩ := dirs_of_entry w dir base _ h
  unfold Chmod
  simp only [hes, h]
  cases env.chmodErr { dir := dir, base := base } <;> rfl

/-- For every file the walk offers for copying, when the open and the create succeed and
the byte copy fails, the walk function of `CopyFiles` returns what `os.Chmod` returns: nil
when the mode change succeeds, and never the error of the copy as such. -/
theorem copyWalkFn_copy_failed (env : Env) (m : Migrate) (src : String)
    (info : FileInfo) (w : World) (e : GoError) (written : Nat) (hfile : info.IsDir = false)
    (hname : info.Name ≠ "current.sql") (hopen : env.openErr src = none)
    (hcreate : (Create env (w.call (.Open src)) (filepathJoin m.ds.destPath info.Name)).1 = none)
    (hcopy : env.copyErr src = some (e, written)) :
    (copyWalkFn env m src (some info) none w).1 =
      env.chmodErr (filepathJoin m.ds.destPath info.Name) := by
  obtain ⟨mode, hmode⟩ := Create_entry _ _ _ hcreate
  unfold copyWalkFn
  simp only [hfile, hname, Bool.false_eq_true, if_false, Open, hopen]
  cases hc : Create env (w.call (.Open src)) (filepathJoin m.ds.destPath info.Name) with
  | mk r w2 =>
    rw [hc] at hcreate hmode
    simp only at hcreate hmode
    subst hcreate
    simp only [Copy, hcopy]
    have hentry : ((w2.call (.Copy src (filepathJoin m.ds.destPath info.Name))).setData
        (filepathJoin m.ds.destPath info.Name) ⟨info.content.data.take written⟩).entry
          (filepathJoin m.ds.destPath info.Name) =
        some (.file ⟨info.content.data.take written⟩ mode) :=
      setData_entry _ _ "" _ mode hmode
    exact Chmod_of_entry env _ _ _ mode info.Mode hentry

/-- C6, the code at the failing input: the source file `5_x.up.sql` has mode `0755`, no
call fails and the destination directory is empty (mask `022`).  `CopyFiles` returns nil,
the destination file has the bytes of the source but the mode `0644` that `os.Create` gave
it, and `os.Chmod` was never called. -/
theorem CopyFiles_mode_not_propagated :
    (CopyFiles (Env.calm [] 0) runner (World.init "dest" [] "src" (some sampleTree))).1
      = none ∧
    (CopyFiles (Env.calm [] 0) runner (World.init "dest" [] "src" (some sampleTree))).2.dirs
      "dest" = some [("5_x.up.sql", .file "abc" 0o644)] ∧
    (0o644 : Nat) ≠ 0o755 ∧
    (CopyFiles (Env.calm [] 0) runner (World.init "dest" [] "src" (some sampleTree))).2.calls =
      [.ReadDir "dest", .Lstat "src", .ReadDir "src", .Lstat "src/5_x.up.sql",
        .Open "src/5_x.up.sql", .Create { dir := "dest", base := "5_x.up.sql" },
        .Copy "src/5_x.up.sql" { dir := "dest", base := "5_x.up.sql" },
        .Close "src/5_x.up.sql", .Lstat "src/current.sql", .Lstat "src/tests",
        .ReadDir "src/tests"] := by
  decide

/-- C7, the code at the failing input: the byte copy of `src/1_a.up.sql` fails with
`ENOSPC` after one byte.  When the mode change succeeds, `CopyFiles` returns nil, not that
error, and goes on to copy `2_b.up.sql`; when the mode change fails too, `CopyFiles`
returns the error of the mode change, not that of the copy. -/
theorem CopyFiles_copy_error_lost :
    Env.copyFails.copyErr "src/1_a.up.sql" = some (.sys "write" 28, 1) ∧
    (CopyFiles Env.copyFails runner (World.init "dest" [] "src" (some twoFileTree))).1
      = none ∧
    (CopyFiles Env.copyFails runner (World.init "dest" [] "src" (some twoFileTree))).2.dirs
      "dest" = some [("1_a.up.sql", .file "a" 0o644), ("2_b.up.sql", .file "xyz" 0o644)] ∧
    (CopyFiles Env.copyFails runner (World.init "dest" [] "src" (some twoFileTree))).2.calls =
      [.ReadDir "dest", .Lstat "src", .ReadDir "src", .Lstat "src/1_a.up.sql",
        .Open "src/1_a.up.sql", .Create { dir := "dest", base := "1_a.up.sql" },
        .Copy "src/1_a.up.sql" { dir := "dest", base := "1_a.up.sql" },
        .Chmod { dir := "dest", base := "1_a.up.sql" } 0o644,
        .Close "src/1_a.up.sql", .Lstat "src/2_b.up.sql",
        .Open "src/2_b.up.sql", .Create { dir := "dest", base := "2_b.up.sql" },
        .Copy "src/2_b.up.sql" { dir := "dest", base := "2_b.up.sql" },
        .Close "src/2_b.up.sql"] ∧
    (CopyFiles { Env.copyFails with chmodErr := fun _ => some (.sys "chmod" 1) } runner
      (World.init "dest" [] "src" (some twoFileTree))).1 = some (.sys "chmod" 1) := by
  decide

/-- C8, the code at the failing input: the byte copy of `src/5_x.up.sql`, whose content is
`abc`, fails before any byte is written.  `CopyFiles` returns nil, and the destination file
`5_x.up.sql` is empty: its content is that of no source file. -/
theorem CopyFiles_nil_with_truncated_file :
    (CopyFiles { Env.calm [] 0 with copyErr := fun _ => some (.sys "read" 5, 0) } runner
      (World.init "dest" [] "src" (some sampleTree))).1 = none ∧
    (CopyFiles { Env.calm [] 0 with copyErr := fun _ => some (.sys "read" 5, 0) } runner
      (World.init "dest" [] "src" (some sampleTree))).2.dirs "dest" =
        some [("5_x.up.sql", .file "" 0o755)] ∧
    sampleTree = .dir "src" [.file "5_x.up.sql" 0o755 "abc", .file "current.sql" 0o644 "cur",
      .dir "tests" [.file "9_y.up.sql" 0o644 "t"]] ∧
    ("" : String) ≠ "abc" := by
  refine ⟨by decide, by decide, rfl, by decide⟩

/-- The exclusions of the mirror at the example of the specification: with no call failing,
the tree `5_x.up.sql`, `current.sql`, `tests/9_y.up.sql` mirrored into an empty destination
gives exactly the file `5_x.up.sql` with the bytes of the source. -/
theorem CopyFiles_exclusions_example :
    ((CopyFiles (Env.calm [] 0) runner
      (World.init "dest" [] "src" (some sampleTree))).2.dirs "dest").map
        (fun es => es.map (fun e => (e.1, match e.2 with
          | .file data _ => some data
          | .dir => none))) = some [("5_x.up.sql", some "abc")] := by
  decide

/-- The flattening of the mirror at an example: with no call failing, the file
`sub/7_z.up.sql` of the source is mirrored to `7_z.up.sql` directly in the destination. -/
theorem CopyFiles_flattens_example :
    (CopyFiles (Env.calm [] 0) runner
      (World.init "dest" [] "src"
        (some (.dir "src" [.dir "sub" [.file "7_z.up.sql" 0o644 "z"]])))).2.dirs "dest" =
      some [("7_z.up.sql", .file "z" 0o644)] := by
  decide

end GoMigrate
